import Mathlib

/-!
Verification of the configuration-handling core of the `azure-cli-extensions`
repository: the `AzureMLKubernetes` partner-extension installer
(`src/k8s-extension/azext_k8s_extension/partner_extensions/AzureMLKubernetes.py`)
and the alerts-management argument actions
(`src/alertsmanagement/azext_alertsmanagement/generated/action.py`).

Python dictionaries holding CLI configuration are embedded as association
lists `List (String × Val)` where `Val` covers the Python values that actually
flow through these maps: strings, booleans and `None`.  Python's `str(...)`
and truthiness are embedded explicitly.  Remote management-API calls are
inputs supplied by an environment record, and the calls the code makes are
recorded in a trace.
-/

set_option maxRecDepth 16384

deriving instance DecidableEq for Except

namespace AzureCliExt

/-- A Python value stored in a configuration map: the CLI hands in strings,
and the installer writes back booleans; `None` can be stored by the
SSL-secret path. -/
inductive Val where
  | s (v : String)
  | b (v : Bool)
  | pyNone
deriving Repr, DecidableEq

/-- Python `str(...)` on a stored value. -/
def pyStr : Val → String
  | .s v => v
  | .b true => "True"
  | .b false => "False"
  | .pyNone => "None"

/-- Python `str(...)` applied to the result of a `dict.get`-style lookup,
which is `None` when the key is absent. -/
def pyStrOpt : Option Val → String
  | Option.none => "None"
  | some v => pyStr v

/-- Python `str.lower()`, character by character (the values compared here
are ASCII). -/
def pyLower (s : String) : String := ⟨s.data.map Char.toLower⟩

/-- Python truthiness of a stored value (`""` and `False` are falsy). -/
def truthy : Val → Bool
  | .s v => !(v == "")
  | .b v => v
  | .pyNone => false

/-- Python truthiness of the result of a `dict.get`-style lookup. -/
def truthyOpt : Option Val → Bool
  | Option.none => false
  | some v => truthy v

/-- A Python `dict` of configuration settings, as an association list with
unique keys (insertion order preserved, as in Python 3 dicts). -/
abbrev CfgMap := List (String × Val)

/-- Lookup, Python `d.get(key)` / `d[key]`. -/
def cget : CfgMap → String → Option Val
  | [], _ => Option.none
  | (k, v) :: rest, key => if k == key then some v else cget rest key

/-- Store, Python `d[key] = val`: replaces the value in place if the key is
present, appends otherwise. -/
def cset : CfgMap → String → Val → CfgMap
  | [], key, val => [(key, val)]
  | (k, v) :: rest, key, val =>
    if k == key then (k, val) :: rest else (k, v) :: cset rest key val

/-- Removal, Python `d.pop(key, None)`. -/
def cpop : CfgMap → String → CfgMap
  | [], _ => []
  | (k, v) :: rest, key => if k == key then rest else (k, v) :: cpop rest key

/-- The key list of a configuration map, Python `d.keys()`. -/
def ckeys (m : CfgMap) : List String := m.map Prod.fst

theorem cget_cset_self (m : CfgMap) (k : String) (v : Val) :
    cget (cset m k v) k = some v := by
  induction m with
  | nil => simp [cget, cset]
  | cons hd tl ih =>
    obtain ⟨k', v'⟩ := hd
    by_cases h : k' = k
    · simp [cget, cset, h]
    · simp [cget, cset, h, ih]

theorem cget_cset_ne (m : CfgMap) (k k' : String) (v : Val) (h : k ≠ k') :
    cget (cset m k v) k' = cget m k' := by
  induction m with
  | nil => simp [cget, cset, h]
  | cons hd tl ih =>
    obtain ⟨k₀, v₀⟩ := hd
    by_cases h₀ : k₀ = k
    · subst h₀
      simp [cget, cset, h]
    · simp only [cset, beq_iff_eq, h₀, if_false]
      by_cases h₁ : k₀ = k'
      · simp [cget, h₁]
      · simp [cget, h₁, ih]

/-- Source `AzureMLKubernetes.py` line 633, `_get_value_from_config_protected_config`:
the effective value of a key, settings first, protected settings as fallback. -/
def getValueFromConfigProtectedConfig (key : String) (config protectedConfig : CfgMap) :
    Option Val :=
  match cget config key with
  | some v => some v
  | Option.none => cget protectedConfig key

/-- One write of the dereference pass: source line 629,
`output_dict[key] = output_dict.get(key, ref_value)`. -/
def derefWrite (refValue : Val) (od : CfgMap) (key : String) : CfgMap :=
  cset od key ((cget od key).getD refValue)

/-- One entry of the reference mapping: source lines 624-629 (skip an absent
virtual key, else propagate its value over the reference list). -/
def derefEntry (od : CfgMap) (refKey : String) (refList : List String) : CfgMap :=
  match cget od refKey with
  | Option.none => od
  | some refValue => refList.foldl (derefWrite refValue) od

/-- Source `_dereference` (lines 621-630): fold the reference-mapping entries,
in order, over a copy of the output map. -/
def dereference (refMapping : List (String × List String)) (outputDict : CfgMap) : CfgMap :=
  refMapping.foldl (fun od e => derefEntry od e.1 e.2) outputDict

theorem derefWrite_preserves (v : Val) (od : CfgMap) (key k : String)
    (h : (cget od k).isSome) : cget (derefWrite v od key) k = cget od k := by
  by_cases hk : key = k
  · subst hk
    obtain ⟨x, hx⟩ := Option.isSome_iff_exists.mp h
    simp [derefWrite, hx, cget_cset_self]
  · simp [derefWrite, cget_cset_ne _ _ _ _ hk]

theorem derefWrite_untouched (v : Val) (od : CfgMap) (key k : String)
    (h : key ≠ k) : cget (derefWrite v od key) k = cget od k := by
  simp [derefWrite, cget_cset_ne _ _ _ _ h]

theorem derefWrite_fills (v : Val) (od : CfgMap) (key : String)
    (h : cget od key = Option.none) : cget (derefWrite v od key) key = some v := by
  simp [derefWrite, h, cget_cset_self]

theorem foldl_derefWrite_preserves (v : Val) (ks : List String) (od : CfgMap) (k : String)
    (h : (cget od k).isSome) :
    cget (ks.foldl (derefWrite v) od) k = cget od k := by
  induction ks generalizing od with
  | nil => rfl
  | cons hd tl ih =>
    have h1 : cget (derefWrite v od hd) k = cget od k := derefWrite_preserves v od hd k h
    have h2 : (cget (derefWrite v od hd) k).isSome := by rw [h1]; exact h
    simp only [List.foldl_cons]
    rw [ih _ h2, h1]

theorem foldl_derefWrite_untouched (v : Val) (ks : List String) (od : CfgMap) (k : String)
    (h : k ∉ ks) : cget (ks.foldl (derefWrite v) od) k = cget od k := by
  induction ks generalizing od with
  | nil => rfl
  | cons hd tl ih =>
    simp only [List.mem_cons, not_or] at h
    simp only [List.foldl_cons]
    rw [ih _ h.2, derefWrite_untouched v od hd k (fun he => h.1 he.symm)]

theorem foldl_derefWrite_fills (v : Val) (ks : List String) (od : CfgMap) (k : String)
    (habs : cget od k = Option.none) (hmem : k ∈ ks) :
    cget (ks.foldl (derefWrite v) od) k = some v := by
  induction ks generalizing od with
  | nil => cases hmem
  | cons hd tl ih =>
    simp only [List.foldl_cons]
    by_cases hk : hd = k
    · subst hk
      have h1 : cget (derefWrite v od hd) hd = some v := derefWrite_fills v od hd habs
      have h2 : (cget (derefWrite v od hd) hd).isSome := by rw [h1]; rfl
      rw [foldl_derefWrite_preserves v tl _ hd h2, h1]
    · have hmem' : k ∈ tl := by
        rcases List.mem_cons.mp hmem with h | h
        · exact absurd h.symm hk
        · exact h
      have habs' : cget (derefWrite v od hd) k = Option.none := by
        rw [derefWrite_untouched v od hd k hk]; exact habs
      exact ih _ habs' hmem'

theorem derefEntry_preserves (od : CfgMap) (rk : String) (rl : List String) (k : String)
    (h : (cget od k).isSome) : cget (derefEntry od rk rl) k = cget od k := by
  unfold derefEntry
  cases cget od rk with
  | none => rfl
  | some v => exact foldl_derefWrite_preserves v rl od k h

theorem derefEntry_untouched (od : CfgMap) (rk : String) (rl : List String) (k : String)
    (h : k ∉ rl) : cget (derefEntry od rk rl) k = cget od k := by
  unfold derefEntry
  cases cget od rk with
  | none => rfl
  | some v => exact foldl_derefWrite_untouched v rl od k h

theorem derefEntry_fills (od : CfgMap) (rk : String) (rl : List String) (k : String) (v : Val)
    (hrk : cget od rk = some v) (habs : cget od k = Option.none) (hmem : k ∈ rl) :
    cget (derefEntry od rk rl) k = some v := by
  unfold derefEntry
  rw [hrk]
  exact foldl_derefWrite_fills v rl od k habs hmem

theorem dereference_preserves (refs : List (String × List String)) (m : CfgMap) (k : String)
    (h : (cget m k).isSome) : cget (dereference refs m) k = cget m k := by
  unfold dereference
  induction refs generalizing m with
  | nil => rfl
  | cons hd tl ih =>
    have h1 : cget (derefEntry m hd.1 hd.2) k = cget m k := derefEntry_preserves m hd.1 hd.2 k h
    have h2 : (cget (derefEntry m hd.1 hd.2) k).isSome := by rw [h1]; exact h
    simp only [List.foldl_cons]
    rw [ih _ h2, h1]

theorem dereference_untouched (refs : List (String × List String)) (m : CfgMap) (k : String)
    (h : ∀ e ∈ refs, k ∉ e.2) : cget (dereference refs m) k = cget m k := by
  unfold dereference
  induction refs generalizing m with
  | nil => rfl
  | cons hd tl ih =>
    simp only [List.foldl_cons]
    rw [ih _ (fun e he => h e (List.mem_cons_of_mem hd he)),
      derefEntry_untouched m hd.1 hd.2 k (h hd (List.mem_cons_self hd tl))]

/-- Pairwise disjointness of the reference lists of distinct entries of a
reference mapping (true of the installer's `reference_mapping`). -/
abbrev RefListsDisjoint (refs : List (String × List String)) : Prop :=
  refs.Pairwise (fun e₁ e₂ => ∀ c ∈ e₁.2, c ∉ e₂.2)

theorem dereference_fills (refs : List (String × List String)) (m : CfgMap)
    (hdisj : RefListsDisjoint refs) (rk : String) (rl : List String)
    (hmem : (rk, rl) ∈ refs) (v : Val) (hrk : cget m rk = some v)
    (c : String) (hc : c ∈ rl) (habs : cget m c = Option.none) :
    cget (dereference refs m) c = some v := by
  unfold dereference
  induction refs generalizing m with
  | nil => cases hmem
  | cons hd tl ih =>
    have hdisj' : RefListsDisjoint tl := (List.pairwise_cons.mp hdisj).2
    have hhd : ∀ e ∈ tl, ∀ x ∈ hd.2, x ∉ e.2 := (List.pairwise_cons.mp hdisj).1
    simp only [List.foldl_cons]
    rcases List.mem_cons.mp hmem with heq | htl
    · subst heq
      have h1 : cget (derefEntry m rk rl) c = some v := derefEntry_fills m rk rl c v hrk habs hc
      have huntouched : ∀ e ∈ tl, c ∉ e.2 := fun e he => hhd e he c hc
      calc cget (tl.foldl (fun od e => derefEntry od e.1 e.2) (derefEntry m rk rl)) c
          = cget (derefEntry m rk rl) c := dereference_untouched tl _ c huntouched
        _ = some v := h1
    · have hcnot : c ∉ hd.2 := fun hin => hhd (rk, rl) htl c hin hc
      have h1 : cget (derefEntry m hd.1 hd.2) c = cget m c :=
        derefEntry_untouched m hd.1 hd.2 c hcnot
      have h2 : (cget m rk).isSome := by rw [hrk]; rfl
      have h3 : cget (derefEntry m hd.1 hd.2) rk = some v := by
        rw [derefEntry_preserves m hd.1 hd.2 rk h2, hrk]
      exact ih _ hdisj' htl h3 (by rw [h1]; exact habs)

/-! MD5, as used by `_get_valid_name` (`from hashlib import md5`): the RFC 1321
algorithm over the UTF-8 bytes of the input, written with `Nat` arithmetic and
explicit reduction modulo 2^32. -/

/-- Modulus of 32-bit words. -/
def M32 : Nat := 4294967296

/-- Left rotation of a 32-bit word (`x < M32`, `0 < n ≤ 32`). -/
def rotl32 (x n : Nat) : Nat := (x * 2 ^ n) % M32 + x / 2 ^ (32 - n)

/-- MD5 round function F. -/
def md5F (b c d : Nat) : Nat := (b &&& c) ||| ((4294967295 - b) &&& d)

/-- MD5 round function G. -/
def md5G (b c d : Nat) : Nat := (d &&& b) ||| ((4294967295 - d) &&& c)

/-- MD5 round function H. -/
def md5H (b c d : Nat) : Nat := b ^^^ c ^^^ d

/-- MD5 round function I. -/
def md5I (b c d : Nat) : Nat := c ^^^ (b ||| (4294967295 - d))

/-- The MD5 sine-derived constant table. -/
def md5K : List Nat :=
  [0xd76aa478, 0xe8c7b756, 0x242070db, 0xc1bdceee,
   0xf57c0faf, 0x4787c62a, 0xa8304613, 0xfd469501,
   0x698098d8, 0x8b44f7af, 0xffff5bb1, 0x895cd7be,
   0x6b901122, 0xfd987193, 0xa679438e, 0x49b40821,
   0xf61e2562, 0xc040b340, 0x265e5a51, 0xe9b6c7aa,
   0xd62f105d, 0x02441453, 0xd8a1e681, 0xe7d3fbc8,
   0x21e1cde6, 0xc33707d6, 0xf4d50d87, 0x455a14ed,
   0xa9e3e905, 0xfcefa3f8, 0x676f02d9, 0x8d2a4c8a,
   0xfffa3942, 0x8771f681, 0x6d9d6122, 0xfde5380c,
   0xa4beea44, 0x4bdecfa9, 0xf6bb4b60, 0xbebfbc70,
   0x289b7ec6, 0xeaa127fa, 0xd4ef3085, 0x04881d05,
   0xd9d4d039, 0xe6db99e5, 0x1fa27cf8, 0xc4ac5665,
   0xf4292244, 0x432aff97, 0xab9423a7, 0xfc93a039,
   0x655b59c3, 0x8f0ccc92, 0xffeff47d, 0x85845dd1,
   0x6fa87e4f, 0xfe2ce6e0, 0xa3014314, 0x4e0811a1,
   0xf7537e82, 0xbd3af235, 0x2ad7d2bb, 0xeb86d391]

/-- The MD5 per-round shift table. -/
def md5S : List Nat :=
  [7, 12, 17, 22, 7, 12, 17, 22, 7, 12, 17, 22, 7, 12, 17, 22,
   5, 9, 14, 20, 5, 9, 14, 20, 5, 9, 14, 20, 5, 9, 14, 20,
   4, 11, 16, 23, 4, 11, 16, 23, 4, 11, 16, 23, 4, 11, 16, 23,
   6, 10, 15, 21, 6, 10, 15, 21, 6, 10, 15, 21, 6, 10, 15, 21]

/-- RFC 1321 padding: a `0x80` byte, zeros to 56 mod 64, then the 64-bit
little-endian bit length. -/
def md5Pad (msg : List Nat) : List Nat :=
  let bitLen := msg.length * 8
  let padLen := (119 - msg.length % 64) % 64
  msg ++ [0x80] ++ List.replicate padLen 0 ++
    [bitLen % 256, bitLen / 256 % 256, bitLen / 65536 % 256, bitLen / 16777216 % 256,
     bitLen / 4294967296 % 256, bitLen / 1099511627776 % 256,
     bitLen / 281474976710656 % 256, bitLen / 72057594037927936 % 256]

/-- Little-endian 32-bit words from a byte list. -/
def bytesToWords : List Nat → List Nat
  | b0 :: b1 :: b2 :: b3 :: rest =>
    (b0 + b1 * 256 + b2 * 65536 + b3 * 16777216) :: bytesToWords rest
  | _ => []

/-- One of the 64 MD5 rounds over the 16-word chunk `m`. -/
def md5Round (m : List Nat) (st : Nat × Nat × Nat × Nat) (i : Nat) : Nat × Nat × Nat × Nat :=
  let a := st.1
  let b := st.2.1
  let c := st.2.2.1
  let d := st.2.2.2
  let f := if i < 16 then md5F b c d
    else if i < 32 then md5G b c d
    else if i < 48 then md5H b c d
    else md5I b c d
  let g := if i < 16 then i
    else if i < 32 then (5 * i + 1) % 16
    else if i < 48 then (3 * i + 5) % 16
    else (7 * i) % 16
  let x := (a + f + md5K.getD i 0 + m.getD g 0) % M32
  (d, (b + rotl32 x (md5S.getD i 0)) % M32, b, c)

/-- Digest-state accumulation over one 64-byte chunk. -/
def md5Chunk (st : Nat × Nat × Nat × Nat) (chunk : List Nat) : Nat × Nat × Nat × Nat :=
  let m := bytesToWords chunk
  let r := (List.range 64).foldl (md5Round m) st
  ((st.1 + r.1) % M32, (st.2.1 + r.2.1) % M32,
    (st.2.2.1 + r.2.2.1) % M32, (st.2.2.2 + r.2.2.2) % M32)

/-- Split a byte list into 64-byte chunks; the fuel argument (instantiated
with the list length) keeps the recursion structural. -/
def toChunks : Nat → List Nat → List (List Nat)
  | _, [] => []
  | 0, _ => []
  | fuel + 1, l => l.take 64 :: toChunks fuel (l.drop 64)

/-- The four MD5 state words of a byte message. -/
def md5Words (msg : List Nat) : Nat × Nat × Nat × Nat :=
  let padded := md5Pad msg
  (toChunks padded.length padded).foldl md5Chunk
    (0x67452301, 0xefcdab89, 0x98badcfe, 0x10325476)

/-- The four bytes of a 32-bit word, little-endian. -/
def leBytes (x : Nat) : List Nat :=
  [x % 256, x / 256 % 256, x / 65536 % 256, x / 16777216 % 256]

/-- The 16-byte MD5 digest of a byte message. -/
def md5Bytes (msg : List Nat) : List Nat :=
  leBytes (md5Words msg).1 ++ leBytes (md5Words msg).2.1 ++
    leBytes (md5Words msg).2.2.1 ++ leBytes (md5Words msg).2.2.2

/-- Lower-case hex digit. -/
def hexChar (n : Nat) : Char := if n < 10 then Char.ofNat (48 + n) else Char.ofNat (87 + n)

/-- Lower-case hex rendering of a byte list, two digits per byte. -/
def hexBytes : List Nat → List Char
  | [] => []
  | b :: rest => hexChar (b / 16) :: hexChar (b % 16) :: hexBytes rest

/-- UTF-8 encoding of one character (Python `str.encode("utf8")`). -/
def charUtf8 (c : Char) : List Nat :=
  let n := c.toNat
  if n < 128 then [n]
  else if n < 2048 then [192 + n / 64, 128 + n % 64]
  else if n < 65536 then [224 + n / 4096, 128 + n / 64 % 64, 128 + n % 64]
  else [240 + n / 262144, 128 + n / 4096 % 64, 128 + n / 64 % 64, 128 + n % 64]

/-- UTF-8 bytes of a string. -/
def utf8Bytes (s : String) : List Nat := s.data.flatMap charUtf8

/-- `md5(input.encode("utf8")).hexdigest()` of source line 490. -/
def md5Hex (s : String) : String := ⟨hexBytes (md5Bytes (utf8Bytes s))⟩

example : md5Hex "" = "d41d8cd98f00b204e9800998ecf8427e" := by decide

example : md5Hex "abc" = "900150983cd24fb0d6963f7d28e17f72" := by decide

/-- Source `_get_valid_name` (lines 478-492).  Python's Unicode `str.isalnum`
is modelled on the ASCII alphanumerics (`Char.isAlphanum`); the failing
`assert` on an empty filtered name is modelled as `Option.none`. -/
def getValidName (inputName : String) (suffixLen maxLen : Nat) : Option String :=
  let normalized := inputName.data.filter (fun c => c.isAlphanum)
  if normalized = [] then Option.none
  else if normalized.length ≤ maxLen then some ⟨normalized⟩
  else
    let suffixLen := if suffixLen > maxLen then maxLen else suffixLen
    let md5Suffix := (md5Hex inputName).data.take suffixLen
    some ⟨normalized.take (maxLen - suffixLen) ++ md5Suffix⟩

theorem hexBytes_length (l : List Nat) : (hexBytes l).length = 2 * l.length := by
  induction l with
  | nil => rfl
  | cons b rest ih => simp [hexBytes, ih]; omega

theorem leBytes_length (x : Nat) : (leBytes x).length = 4 := rfl

theorem md5Bytes_length (msg : List Nat) : (md5Bytes msg).length = 16 := by
  simp [md5Bytes, leBytes_length]

theorem md5Hex_length (s : String) : (md5Hex s).data.length = 32 := by
  show (hexBytes (md5Bytes (utf8Bytes s))).length = 32
  rw [hexBytes_length, md5Bytes_length]

/-- C8: for `_get_valid_name` with suffix length 6 (as both call sites use):
an input whose alphanumeric-filtered form fits within `max_len` comes back
unchanged (filtered); a longer input yields exactly `max_len` characters
ending in the first 6 characters of the MD5 hex digest of the original
unfiltered input; and the function is deterministic.  The source's `assert`
requires a nonempty filtered form, and the 6-character suffix requires
`6 ≤ max_len` (below that the source clamps the suffix). -/
theorem claim_C8_get_valid_name (input : String) (maxLen : Nat)
    (hne : input.data.filter (fun c => c.isAlphanum) ≠ [])
    (h6 : 6 ≤ maxLen) :
    ((input.data.filter (fun c => c.isAlphanum)).length ≤ maxLen →
      getValidName input 6 maxLen = some ⟨input.data.filter (fun c => c.isAlphanum)⟩) ∧
    (maxLen < (input.data.filter (fun c => c.isAlphanum)).length →
      ∃ out, getValidName input 6 maxLen = some out ∧
        out.data.length = maxLen ∧
        out.data.drop (maxLen - 6) = (md5Hex input).data.take 6) ∧
    (∀ input₂, input = input₂ →
      getValidName input 6 maxLen = getValidName input₂ 6 maxLen) := by
  refine ⟨?_, ?_, ?_⟩
  · intro hle
    simp [getValidName, hne, hle]
  · intro hgt
    have hnle : ¬ ((input.data.filter (fun c => c.isAlphanum)).length ≤ maxLen) := by omega
    have hclamp : ¬ (6 > maxLen) := by omega
    refine ⟨⟨(input.data.filter (fun c => c.isAlphanum)).take (maxLen - 6) ++
      (md5Hex input).data.take 6⟩, ?_, ?_, ?_⟩
    · simp [getValidName, hne, hnle, hclamp]
    · show ((input.data.filter (fun c => c.isAlphanum)).take (maxLen - 6) ++
        (md5Hex input).data.take 6).length = maxLen
      rw [List.length_append, List.length_take, List.length_take, md5Hex_length]
      omega
    · show ((input.data.filter (fun c => c.isAlphanum)).take (maxLen - 6) ++
        (md5Hex input).data.take 6).drop (maxLen - 6) = (md5Hex input).data.take 6
      have hlen : ((input.data.filter (fun c => c.isAlphanum)).take (maxLen - 6)).length
          = maxLen - 6 := by
        rw [List.length_take]; omega
      nth_rewrite 1 [← hlen]
      rw [List.drop_left]
  · intro s₂ h
    rw [h]

/-- Witness for C8: the truncation branch at the concrete input
`"abcdefghij"` with `max_len = 8`. -/
theorem claim_C8_get_valid_name_witness :
    ∃ out, getValidName "abcdefghij" 6 8 = some out ∧ out.data.length = 8 ∧
      out.data.drop 2 = (md5Hex "abcdefghij").data.take 6 := by
  have h := (claim_C8_get_valid_name "abcdefghij" 8 (by decide) (by decide)).2.1 (by decide)
  simpa using h

/-! The `AzureMLKubernetes` installer: configuration keys (the constants of
`AzureMLKubernetes.__init__`), error messages, and the validation layer. -/

/-- The base64 alphabet. -/
def base64Char (n : Nat) : Char :=
  "ABCDEFGHIJKLMNOPQRSTUVWXYZabcdefghijklmnopqrstuvwxyz0123456789+/".data.getD n '='

/-- Python `base64.b64encode` over a byte list. -/
def b64Encode : List Nat → List Char
  | a :: b :: c :: rest =>
    base64Char (a / 4) :: base64Char ((a % 4) * 16 + b / 16) ::
      base64Char ((b % 16) * 4 + c / 64) :: base64Char (c % 64) :: b64Encode rest
  | [a, b] =>
    [base64Char (a / 4), base64Char ((a % 4) * 16 + b / 16), base64Char ((b % 16) * 4), '=']
  | [a] => [base64Char (a / 4), base64Char ((a % 4) * 16), '=', '=']
  | [] => []

/-- Source `__set_inference_ssl_from_file` body: the file content is
ASCII-encoded and base64-encoded (`base64.b64encode(data.encode("ascii")).decode()`). -/
def base64EncodeAscii (s : String) : String := ⟨b64Encode (s.data.map Char.toNat)⟩

def DEFAULT_RELEASE_NAMESPACE : String := "azureml"

def RELAY_CONNECTION_STRING_KEY : String := "relayserver.relayConnectionString"

def HC_RESOURCE_ID_KEY : String := "relayserver.hybridConnectionResourceID"

def RELAY_HC_NAME_KEY : String := "relayserver.hybridConnectionName"

def SERVICE_BUS_CONNECTION_STRING_KEY : String := "servicebus.connectionString"

def SERVICE_BUS_RESOURCE_ID_KEY : String := "servicebus.resourceID"

def SERVICE_BUS_TOPIC_SUB_MAPPING_KEY : String := "servicebus.topicSubMapping"

def AZURE_LOG_ANALYTICS_ENABLED_KEY : String := "azure_log_analytics.enabled"

def AZURE_LOG_ANALYTICS_CUSTOMER_ID_KEY : String := "azure_log_analytics.customer_id"

def AZURE_LOG_ANALYTICS_CONNECTION_STRING : String := "azure_log_analytics.connection_string"

def JOB_SCHEDULER_LOCATION_KEY : String := "jobSchedulerLocation"

def CLUSTER_NAME_FRIENDLY_KEY : String := "cluster_name_friendly"

def ENABLE_TRAINING : String := "enableTraining"

def ENABLE_INFERENCE : String := "enableInference"

def RELAY_SERVER_CONNECTION_STRING : String := "relayServerConnectionString"

def SERVICE_BUS_CONNECTION_STRING : String := "serviceBusConnectionString"

def LOG_ANALYTICS_WS_ENABLED : String := "logAnalyticsWS"

def SERVICE_BUS_COMPUTE_STATE_TOPIC : String := "computestate-updatedby-computeprovider"

def SERVICE_BUS_COMPUTE_STATE_SUB : String := "compute-scheduler-computestate"

def SERVICE_BUS_JOB_STATE_TOPIC : String := "jobstate-updatedby-computeprovider"

def SERVICE_BUS_JOB_STATE_SUB : String := "compute-scheduler-jobstate"

def sslKeyPemFile : String := "sslKeyPemFile"

def sslCertPemFile : String := "sslCertPemFile"

def allowInsecureConnections : String := "allowInsecureConnections"

def privateEndpointILB : String := "privateEndpointILB"

def privateEndpointNodeport : String := "privateEndpointNodeport"

def inferenceLoadBalancerHA : String := "inferenceLoadBalancerHA"

def SSL_SECRET : String := "sslSecret"

def IS_AKS_MIGRATION : String := "isAKSMigration"

def installNvidiaDevicePlugin : String := "installNvidiaDevicePlugin"

/-- The instance's `reference_mapping` (source lines 93-97). -/
def referenceMapping : List (String × List String) :=
  [(RELAY_SERVER_CONNECTION_STRING, [RELAY_CONNECTION_STRING_KEY]),
   (SERVICE_BUS_CONNECTION_STRING, [SERVICE_BUS_CONNECTION_STRING_KEY]),
   ("cluster_name", ["clusterId", "prometheus.prometheusSpec.externalLabels.cluster_name"])]

/-- The azclierror kinds raised by the embedded code paths, plus the
cancellation a declined confirmation prompt raises. -/
inductive Err where
  | invalidArgumentValue (msg : String)
  | mutuallyExclusiveArgument (msg : String)
  | cloudError
  | resourceNotFound (msg : String)
  | azureResponse (msg : String)
  | operationCancelled
deriving Repr, DecidableEq

def dupKeysErrMsg : String := "Duplicate keys found."

def dupKeyWarning (key : String) : String :=
  "Duplicate keys found in both configuration settings and configuration protected setttings: " ++ key

def enableFlagsErrMsg : String :=
  "To create Microsoft.AzureML.Kubernetes extension, either enable Machine Learning training or inference by specifying '--configuration-settings enableTraining=true' or '--configuration-settings enableInference=true'"

def tlsErrMsg (releaseNamespace : String) : String :=
  "To enable HTTPs endpoint, either provide sslCertPemFile and sslKeyPemFile to config protected settings, or provide sslSecret (kubernetes secret name) containing both ssl cert and ssl key under " ++ releaseNamespace ++ " namespace. Otherwise, to enable HTTP endpoint, explicitly set allowInsecureConnections=true."

def nodeportIlbErrMsg : String :=
  "Specify either privateEndpointNodeport=true or privateEndpointILB=true, but not both."

def scopeErrMsg (scope : String) : String :=
  "Invalid scope '" ++ scope ++ "'.  This extension can be installed only at 'cluster' scope."

def experimentalWarning : String :=
  "The installed AzureML extension for AML inference is experimental and not covered by customer support. Please use with discretion."

def ilbWarning : String :=
  "Internal load balancer only supported on AKS and AKS Engine Clusters."

def insecureWarning : String :=
  "SSL is not enabled. Allowing insecure connections to the deployed services."

/-- Source `__validate_scoring_fe_settings` (lines 357-401).  Returns the
mutated settings map and the warnings logged, or the raised error. -/
def validateScoringFeSettings (cs cps : CfgMap) (releaseNamespace : String) :
    Except Err (CfgMap × List String) :=
  let isTestCluster :=
    pyLower (pyStrOpt (getValueFromConfigProtectedConfig inferenceLoadBalancerHA cs cps)) == "false"
  let cs := if isTestCluster then cset cs "clusterPurpose" (.s "DevTest")
    else cset cs "clusterPurpose" (.s "FastProd")
  let isAksMig :=
    pyLower (pyStrOpt (getValueFromConfigProtectedConfig IS_AKS_MIGRATION cs cps)) == "true"
  let cs := if isAksMig then
      cset (cset cs "scoringFe.namespace" (.s "default")) IS_AKS_MIGRATION (.s "true")
    else cs
  let sslSecretV := getValueFromConfigProtectedConfig SSL_SECRET cs cps
  let feSslCertFile := cget cps sslCertPemFile
  let feSslKeyFile := cget cps sslKeyPemFile
  let allowInsecure :=
    pyLower (pyStrOpt (getValueFromConfigProtectedConfig allowInsecureConnections cs cps)) == "true"
  let sslEnabled := (truthyOpt feSslCertFile && truthyOpt feSslKeyFile) || truthyOpt sslSecretV
  if !sslEnabled && !allowInsecure then
    .error (.invalidArgumentValue (tlsErrMsg releaseNamespace))
  else
    let feIsNodePort :=
      pyLower (pyStrOpt (getValueFromConfigProtectedConfig privateEndpointNodeport cs cps)) == "true"
    let feIsIlb :=
      pyLower (pyStrOpt (getValueFromConfigProtectedConfig privateEndpointILB cs cps)) == "true"
    if feIsNodePort && feIsIlb then
      .error (.mutuallyExclusiveArgument nodeportIlbErrMsg)
    else if feIsNodePort then
      .ok (cset cs "scoringFe.serviceType.nodePort" (.b true), [])
    else if feIsIlb then
      .ok (cset cs "scoringFe.serviceType.internalLoadBalancer" (.b true), [ilbWarning])
    else
      .ok (cs, [])

/-- Source `__set_inference_ssl_from_secret` (lines 403-404). -/
def setInferenceSslFromSecret (cs : CfgMap) (feSslSecret : Option Val) : CfgMap :=
  cset cs "scoringFe.sslSecret" (feSslSecret.getD Val.pyNone)

/-- Source `__set_inference_ssl_from_file` (lines 406-417); the local file
system is an environment input `fileContent`. -/
def setInferenceSslFromFile (fileContent : String → String) (cps : CfgMap)
    (feSslCertFile feSslKeyFile : String) : CfgMap :=
  let sslCert := base64EncodeAscii (fileContent feSslCertFile)
  let cps := cset cps "scoringFe.sslCert" (.s sslCert)
  let sslKey := base64EncodeAscii (fileContent feSslKeyFile)
  cset cps "scoringFe.sslKey" (.s sslKey)

/-- Source `__set_up_inference_ssl` (lines 419-436). -/
def setUpInferenceSsl (fileContent : String → String) (cs cps : CfgMap) :
    CfgMap × CfgMap × List String :=
  let allowInsecure :=
    pyLower (pyStrOpt (getValueFromConfigProtectedConfig allowInsecureConnections cs cps)) == "true"
  if !allowInsecure then
    let feSslSecret := getValueFromConfigProtectedConfig SSL_SECRET cs cps
    let feSslCertFile := cget cps sslCertPemFile
    let feSslKeyFile := cget cps sslKeyPemFile
    if truthyOpt feSslCertFile && truthyOpt feSslKeyFile then
      (cs, setInferenceSslFromFile fileContent cps (pyStrOpt feSslCertFile)
        (pyStrOpt feSslKeyFile), [])
    else
      (setInferenceSslFromSecret cs feSslSecret, cps, [])
  else
    (cs, cps, [insecureWarning])

/-- Source lines 351-355: write the resolved training/inference booleans back
into the settings (caller-set values win) and pop them from the protected
settings. -/
def finalizeFlags (cs cps : CfgMap) (enableTraining enableInference : Bool) :
    CfgMap × CfgMap :=
  let cs := cset cs ENABLE_TRAINING ((cget cs ENABLE_TRAINING).getD (.b enableTraining))
  let cs := cset cs ENABLE_INFERENCE ((cget cs ENABLE_INFERENCE).getD (.b enableInference))
  (cs, cpop (cpop cps ENABLE_TRAINING) ENABLE_INFERENCE)

/-- Source `__validate_config` (lines 322-355): the duplicate-key check, the
training/inference gate, inference-path validation and SSL setup, and the
flag write-back.  Returns the raised error or the mutated maps, paired with
the warnings logged on the way. -/
def validateConfig (fileContent : String → String) (cs cps : CfgMap)
    (releaseNamespace : String) : Except Err (CfgMap × CfgMap) × List String :=
  let dupKeys := (ckeys cs).filter (fun k => (cget cps k).isSome)
  if !dupKeys.isEmpty then
    (.error (.invalidArgumentValue dupKeysErrMsg), dupKeys.map dupKeyWarning)
  else
    let enableTraining :=
      pyLower (pyStrOpt (getValueFromConfigProtectedConfig ENABLE_TRAINING cs cps)) == "true"
    let enableInference :=
      pyLower (pyStrOpt (getValueFromConfigProtectedConfig ENABLE_INFERENCE cs cps)) == "true"
    if enableInference then
      match validateScoringFeSettings cs cps releaseNamespace with
      | .error e => (.error e, [experimentalWarning])
      | .ok (cs1, ws1) =>
        let r := setUpInferenceSsl fileContent cs1 cps
        (.ok (finalizeFlags r.1 r.2.1 enableTraining enableInference),
          experimentalWarning :: ws1 ++ r.2.2)
    else if !(enableTraining || enableInference) then
      (.error (.invalidArgumentValue enableFlagsErrMsg), [])
    else
      (.ok (finalizeFlags cs cps enableTraining enableInference), [])

/-! The `Create` operation: remote services are environment inputs, and the
remote calls made (cluster resource lookup, auxiliary-resource provisioning)
are recorded in a trace in order. -/

/-- The remote calls `Create` can make. -/
inductive RemoteCall where
  | clusterGet
  | logAnalyticsCreate
  | relayCreate
  | serviceBusCreate
deriving Repr, DecidableEq

/-- Environment of a `Create` invocation: subscription resolution, the
cluster resource-provider pair (`get_cluster_rp_api_version`), the cluster
resource lookup (its `location` on success, a `CloudError` on failure), the
values the three provisioning helpers obtain from the management APIs, and
the local file system. -/
structure CreateEnv where
  subscriptionId : String
  clusterRp : String
  parentApiVersion : String
  clusterLookup : Except Unit String
  logAnalyticsCustomerId : String
  logAnalyticsSharedKey : String
  relayConnectionString : String
  relayHcResourceId : String
  serviceBusConnectionString : String
  serviceBusResourceId : String
  fileContent : String → String

/-- Arguments of `AzureMLKubernetes.Create` that the embedded logic reads. -/
structure CreateArgs where
  resourceGroupName : String
  clusterName : String
  name : String
  clusterType : String
  extensionType : String
  scope : String
  autoUpgradeMinorVersion : Bool
  releaseTrain : Option String
  version : Option String
  releaseNamespace : Option String
  configurationSettings : CfgMap
  configurationProtectedSettings : CfgMap

/-- The manifest `Create` returns (the `Extension` model object): identity is
always `None` and location always `""` in the source, so they are omitted. -/
structure ExtensionManifest where
  extensionType : String
  autoUpgradeMinorVersion : Bool
  releaseTrain : String
  version : Option String
  scopeReleaseNamespace : String
  configurationSettings : CfgMap
  configurationProtectedSettings : CfgMap
deriving Repr, DecidableEq

/-- Outcome of `Create`: the returned `(extension, name, create_identity)`
triple or the raised error, the remote calls made before returning, and the
warnings logged. -/
structure CreateOut where
  result : Except Err (ExtensionManifest × String × Bool)
  trace : List RemoteCall
  warnings : List String
deriving Repr, DecidableEq

/-- Source `__create_required_resource` (lines 438-475): each of the three
auxiliary resources is provisioned only when its connection string is absent
from both maps; the management-API results are environment inputs (the
deterministic namespace names derived with `_get_valid_name` are passed only
to those APIs). -/
def createRequiredResource (env : CreateEnv) (clusterName : String) (cs cps : CfgMap) :
    CfgMap × CfgMap × List RemoteCall :=
  let r1 :=
    if (pyLower (pyStr ((cget cs LOG_ANALYTICS_WS_ENABLED).getD (.b false))) == "true")
        && !truthyOpt (cget cs AZURE_LOG_ANALYTICS_CONNECTION_STRING)
        && !truthyOpt (cget cps AZURE_LOG_ANALYTICS_CONNECTION_STRING) then
      let cs := cset cs AZURE_LOG_ANALYTICS_ENABLED_KEY (.b true)
      let cs := cset cs AZURE_LOG_ANALYTICS_CUSTOMER_ID_KEY (.s env.logAnalyticsCustomerId)
      let cps := cset cps AZURE_LOG_ANALYTICS_CONNECTION_STRING (.s env.logAnalyticsSharedKey)
      (cs, cps, [RemoteCall.logAnalyticsCreate])
    else (cs, cps, [])
  let cs := r1.1
  let cps := r1.2.1
  let r2 :=
    if !truthyOpt (cget cs RELAY_SERVER_CONNECTION_STRING)
        && !truthyOpt (cget cps RELAY_SERVER_CONNECTION_STRING) then
      let cps := cset cps RELAY_SERVER_CONNECTION_STRING (.s env.relayConnectionString)
      let cs := cset cs HC_RESOURCE_ID_KEY (.s env.relayHcResourceId)
      let cs := cset cs RELAY_HC_NAME_KEY (.s clusterName)
      (cs, cps, [RemoteCall.relayCreate])
    else (cs, cps, [])
  let cs := r2.1
  let cps := r2.2.1
  let r3 :=
    if !truthyOpt (cget cs SERVICE_BUS_CONNECTION_STRING)
        && !truthyOpt (cget cps SERVICE_BUS_CONNECTION_STRING) then
      let cps := cset cps SERVICE_BUS_CONNECTION_STRING (.s env.serviceBusConnectionString)
      let cs := cset cs SERVICE_BUS_RESOURCE_ID_KEY (.s env.serviceBusResourceId)
      let cs := cset cs (SERVICE_BUS_TOPIC_SUB_MAPPING_KEY ++ "." ++ SERVICE_BUS_COMPUTE_STATE_TOPIC)
        (.s SERVICE_BUS_COMPUTE_STATE_SUB)
      let cs := cset cs (SERVICE_BUS_TOPIC_SUB_MAPPING_KEY ++ "." ++ SERVICE_BUS_JOB_STATE_TOPIC)
        (.s SERVICE_BUS_JOB_STATE_SUB)
      (cs, cps, [RemoteCall.serviceBusCreate])
    else (cs, cps, [])
  (r3.1, r3.2.1, r1.2.2 ++ r2.2.2 ++ r3.2.2)

/-- Source `Create` after the scope check (lines 106-163): release-namespace
defaulting, validation, cluster lookup, settings defaults (the source reads
the misspelled key `doamin` when defaulting `domain`), on-demand resource
provisioning, dereferencing, release-train defaulting, and manifest
construction.  `effReleaseNamespace` is the source line 106-107 defaulting
(`if not release_namespace`, so `None` and `""` both default). -/
def effReleaseNamespace (rn : Option String) : String :=
  match rn with
  | Option.none => DEFAULT_RELEASE_NAMESPACE
  | some s => if s == "" then DEFAULT_RELEASE_NAMESPACE else s

def createBody (a : CreateArgs) (env : CreateEnv) : CreateOut :=
  let releaseNamespace := effReleaseNamespace a.releaseNamespace
  match validateConfig env.fileContent a.configurationSettings
      a.configurationProtectedSettings releaseNamespace with
  | (.error e, ws) => ⟨.error e, [], ws⟩
  | (.ok (cs0, cps0), ws) =>
    let clusterResourceId := "/subscriptions/" ++ env.subscriptionId ++ "/resourceGroups/" ++
      a.resourceGroupName ++ "/providers/" ++ env.clusterRp ++ "/" ++ a.clusterType ++ "/" ++
      a.clusterName
    match env.clusterLookup with
    | .error _ => ⟨.error .cloudError, [RemoteCall.clusterGet], ws⟩
    | .ok loc =>
      let clusterLocation := pyLower loc
      let cs := cset cs0 "cluster_name" ((cget cs0 "cluster_name").getD (.s clusterResourceId))
      let cs := cset cs "domain"
        ((cget cs "doamin").getD (.s (clusterLocation ++ ".cloudapp.azure.com")))
      let cs := cset cs "location" ((cget cs "location").getD (.s clusterLocation))
      let cs := cset cs JOB_SCHEDULER_LOCATION_KEY
        ((cget cs JOB_SCHEDULER_LOCATION_KEY).getD (.s clusterLocation))
      let cs := cset cs CLUSTER_NAME_FRIENDLY_KEY
        ((cget cs CLUSTER_NAME_FRIENDLY_KEY).getD (.s a.clusterName))
      let r := createRequiredResource env a.clusterName cs cps0
      let cs := dereference referenceMapping r.1
      let cps := dereference referenceMapping r.2.1
      let releaseTrain := match a.releaseTrain with
        | Option.none => "stable"
        | some rt => rt
      ⟨.ok ({ extensionType := a.extensionType,
              autoUpgradeMinorVersion := a.autoUpgradeMinorVersion,
              releaseTrain := releaseTrain,
              version := a.version,
              scopeReleaseNamespace := releaseNamespace,
              configurationSettings := cs,
              configurationProtectedSettings := cps }, a.name, true),
        RemoteCall.clusterGet :: r.2.2, ws⟩

/-- Source `Create` (lines 99-163): the scope guard of lines 103-105, then
the body. -/
def createExt (a : CreateArgs) (env : CreateEnv) : CreateOut :=
  if a.scope == "namespace" then
    ⟨.error (.invalidArgumentValue (scopeErrMsg a.scope)), [], []⟩
  else createBody a env

/-! Helper lemmas: removal, and disequality of the error messages the
installer can raise (needed because two sites use the same azclierror
class with different texts). -/

theorem cget_cpop_ne (m : CfgMap) (k k' : String) (h : k ≠ k') :
    cget (cpop m k) k' = cget m k' := by
  induction m with
  | nil => rfl
  | cons hd tl ih =>
    obtain ⟨k₀, v₀⟩ := hd
    by_cases h₀ : k₀ = k
    · subst h₀
      simp [cpop, cget, fun hh : k₀ = k' => h hh]
    · by_cases h₁ : k₀ = k'
      · simp [cpop, cget, h₀, h₁, show ¬k' = k from fun hh => h hh.symm]
      · simp [cpop, cget, h₀, h₁, ih]

theorem ne_of_take_append (a m t : String) (n : Nat) (hn : n ≤ a.data.length)
    (h : a.data.take n ≠ t.data.take n) : a ++ m ≠ t := by
  intro he
  apply h
  have hd : t.data = a.data ++ m.data := by rw [← he, String.data_append]
  rw [hd, List.take_append_of_le_length hn]

theorem scopeErrMsg_ne_dup (s : String) : scopeErrMsg s ≠ dupKeysErrMsg := by
  show "Invalid scope '" ++ s ++ "'.  This extension can be installed only at 'cluster' scope."
    ≠ dupKeysErrMsg
  rw [String.append_assoc]
  exact ne_of_take_append _ _ _ 1 (by decide) (by decide)

theorem scopeErrMsg_ne_flags (s : String) : scopeErrMsg s ≠ enableFlagsErrMsg := by
  show "Invalid scope '" ++ s ++ "'.  This extension can be installed only at 'cluster' scope."
    ≠ enableFlagsErrMsg
  rw [String.append_assoc]
  exact ne_of_take_append _ _ _ 1 (by decide) (by decide)

theorem tlsErrMsg_ne_dup (ns : String) : tlsErrMsg ns ≠ dupKeysErrMsg := by
  show "To enable HTTPs endpoint, either provide sslCertPemFile and sslKeyPemFile to config protected settings, or provide sslSecret (kubernetes secret name) containing both ssl cert and ssl key under " ++ ns ++ " namespace. Otherwise, to enable HTTP endpoint, explicitly set allowInsecureConnections=true."
    ≠ dupKeysErrMsg
  rw [String.append_assoc]
  exact ne_of_take_append _ _ _ 1 (by decide) (by decide)

theorem tlsErrMsg_ne_flags (ns : String) : tlsErrMsg ns ≠ enableFlagsErrMsg := by
  show "To enable HTTPs endpoint, either provide sslCertPemFile and sslKeyPemFile to config protected settings, or provide sslSecret (kubernetes secret name) containing both ssl cert and ssl key under " ++ ns ++ " namespace. Otherwise, to enable HTTP endpoint, explicitly set allowInsecureConnections=true."
    ≠ enableFlagsErrMsg
  rw [String.append_assoc]
  exact ne_of_take_append _ _ _ 9 (by decide) (by decide)

/-- Inversion: the only errors `__validate_scoring_fe_settings` raises. -/
theorem validateScoringFe_err_cases (cs cps : CfgMap) (ns : String) (e : Err)
    (h : validateScoringFeSettings cs cps ns = .error e) :
    e = .invalidArgumentValue (tlsErrMsg ns) ∨ e = .mutuallyExclusiveArgument nodeportIlbErrMsg := by
  unfold validateScoringFeSettings at h
  dsimp only at h
  repeat' split at h
  all_goals first
    | (injection h with h'; exact Or.inl h'.symm)
    | (injection h with h'; exact Or.inr h'.symm)
    | (injection h)

/-- When the two maps share a key, `__validate_config` logs one warning per
duplicate key and raises the duplicate-key error. -/
theorem validateConfig_dup (fc : String → String) (cs cps : CfgMap) (ns : String)
    (h : (ckeys cs).filter (fun k => (cget cps k).isSome) ≠ []) :
    validateConfig fc cs cps ns =
      (.error (.invalidArgumentValue dupKeysErrMsg),
        ((ckeys cs).filter (fun k => (cget cps k).isSome)).map dupKeyWarning) := by
  unfold validateConfig
  rcases hd : (ckeys cs).filter (fun k => (cget cps k).isSome) with _ | ⟨a, l⟩
  · exact absurd hd h
  · simp

/-- When no key is duplicated and neither flag resolves to true,
`__validate_config` raises the flags error (and logs nothing). -/
theorem validateConfig_flags (fc : String → String) (cs cps : CfgMap) (ns : String)
    (hdup : (ckeys cs).filter (fun k => (cget cps k).isSome) = [])
    (ht : pyLower (pyStrOpt (getValueFromConfigProtectedConfig ENABLE_TRAINING cs cps)) ≠ "true")
    (hi : pyLower (pyStrOpt (getValueFromConfigProtectedConfig ENABLE_INFERENCE cs cps)) ≠ "true") :
    validateConfig fc cs cps ns = (.error (.invalidArgumentValue enableFlagsErrMsg), []) := by
  unfold validateConfig
  rw [hdup]
  simp [ht, hi]

/-- Inversion: the invalid-argument errors `__validate_config` raises, with
the branch condition that produced each. -/
theorem validateConfig_err_inv (fc : String → String) (cs cps : CfgMap) (ns : String) (m : String)
    (h : (validateConfig fc cs cps ns).1 = .error (.invalidArgumentValue m)) :
    (m = dupKeysErrMsg ∧ (ckeys cs).filter (fun k => (cget cps k).isSome) ≠ []) ∨
    (m = enableFlagsErrMsg ∧
      pyLower (pyStrOpt (getValueFromConfigProtectedConfig ENABLE_TRAINING cs cps)) ≠ "true" ∧
      pyLower (pyStrOpt (getValueFromConfigProtectedConfig ENABLE_INFERENCE cs cps)) ≠ "true") ∨
    (m = tlsErrMsg ns ∧
      pyLower (pyStrOpt (getValueFromConfigProtectedConfig ENABLE_INFERENCE cs cps)) = "true") := by
  by_cases hdup : (ckeys cs).filter (fun k => (cget cps k).isSome) = []
  · by_cases hinf :
      pyLower (pyStrOpt (getValueFromConfigProtectedConfig ENABLE_INFERENCE cs cps)) = "true"
    · right; right
      refine ⟨?_, hinf⟩
      unfold validateConfig at h
      rw [hdup] at h
      rcases hsf : validateScoringFeSettings cs cps ns with e | p
      · rw [hsf] at h
        simp [hinf] at h
        rcases validateScoringFe_err_cases _ _ _ _ hsf with htls | hmut
        · have h2 := htls.symm.trans h
          injection h2 with h3
          exact h3.symm
        · have h2 := hmut.symm.trans h
          injection h2
      · rw [hsf] at h
        simp [hinf] at h
    · by_cases htr :
        pyLower (pyStrOpt (getValueFromConfigProtectedConfig ENABLE_TRAINING cs cps)) = "true"
      · unfold validateConfig at h
        rw [hdup] at h
        simp [hinf, htr] at h
      · right; left
        rw [validateConfig_flags fc cs cps ns hdup htr hinf] at h
        simp at h
        exact ⟨h.symm, htr, hinf⟩
  · left
    rw [validateConfig_dup fc cs cps ns hdup] at h
    simp at h
    exact ⟨h.symm, hdup⟩

/-- Inversion: an invalid-argument error from `Create` is the scope error or
comes out of `__validate_config`. -/
theorem createExt_err_inv (a : CreateArgs) (env : CreateEnv) (m : String)
    (h : (createExt a env).result = .error (.invalidArgumentValue m)) :
    (a.scope = "namespace" ∧ m = scopeErrMsg a.scope) ∨
    (a.scope ≠ "namespace" ∧
      (validateConfig env.fileContent a.configurationSettings a.configurationProtectedSettings
        (effReleaseNamespace a.releaseNamespace)).1 = .error (.invalidArgumentValue m)) := by
  unfold createExt at h
  by_cases hs : a.scope = "namespace"
  · left
    rw [if_pos (by simpa using hs)] at h
    simp at h
    exact ⟨hs, h.symm⟩
  · right
    refine ⟨hs, ?_⟩
    rw [if_neg (by simpa using hs)] at h
    unfold createBody at h
    dsimp only at h
    rcases hvc : validateConfig env.fileContent a.configurationSettings
        a.configurationProtectedSettings (effReleaseNamespace a.releaseNamespace) with ⟨res, ws⟩
    rw [hvc] at h
    rcases res with e | p
    · dsimp only at h
      simpa using h
    · dsimp only at h
      rcases hcl : env.clusterLookup with u | loc <;> rw [hcl] at h <;> simp at h

/-- A concrete environment used by the closed (witness and counterexample)
theorems: every remote lookup succeeds. -/
def sampleEnv : CreateEnv where
  subscriptionId := "sub"
  clusterRp := "Microsoft.Kubernetes"
  parentApiVersion := "2021-10-01"
  clusterLookup := .ok "eastus"
  logAnalyticsCustomerId := "cid"
  logAnalyticsSharedKey := "lakey"
  relayConnectionString := "relayconn"
  relayHcResourceId := "hcid"
  serviceBusConnectionString := "sbconn"
  serviceBusResourceId := "sbid"
  fileContent := fun _ => ""

/-- Concrete `Create` arguments used by the closed theorems. -/
def mkArgs (scope : String) (cs cps : CfgMap) : CreateArgs where
  resourceGroupName := "rg"
  clusterName := "clu"
  name := "ext"
  clusterType := "connectedClusters"
  extensionType := "Microsoft.AzureML.Kubernetes"
  scope := scope
  autoUpgradeMinorVersion := true
  releaseTrain := Option.none
  version := Option.none
  releaseNamespace := Option.none
  configurationSettings := cs
  configurationProtectedSettings := cps


/-- C1: if the settings and protected-settings key sets intersect, `Create`
raises the fatal duplicate-key invalid-argument error, makes no remote call
(empty trace: no cluster lookup, no provisioning), and logs a warning naming
each duplicate key; with disjoint key sets the duplicate-key error is never
raised.  (The scope guard of line 103 precedes validation, so the error-path
statement assumes the invocation passes it.) -/
theorem claim_C1_create_duplicate_keys (a : CreateArgs) (env : CreateEnv) :
    ((ckeys a.configurationSettings).filter
        (fun k => (cget a.configurationProtectedSettings k).isSome) ≠ [] →
      a.scope ≠ "namespace" →
      (createExt a env).result = .error (.invalidArgumentValue dupKeysErrMsg) ∧
      (createExt a env).trace = [] ∧
      ∀ k ∈ ckeys a.configurationSettings,
        (cget a.configurationProtectedSettings k).isSome →
        dupKeyWarning k ∈ (createExt a env).warnings) ∧
    ((ckeys a.configurationSettings).filter
        (fun k => (cget a.configurationProtectedSettings k).isSome) = [] →
      (createExt a env).result ≠ .error (.invalidArgumentValue dupKeysErrMsg)) := by
  constructor
  · intro hdup hscope
    have hout : createExt a env =
        ⟨.error (.invalidArgumentValue dupKeysErrMsg), [],
          ((ckeys a.configurationSettings).filter
            (fun k => (cget a.configurationProtectedSettings k).isSome)).map dupKeyWarning⟩ := by
      unfold createExt
      rw [if_neg (by simpa using hscope)]
      unfold createBody
      dsimp only
      rw [validateConfig_dup _ _ _ _ hdup]
    refine ⟨by rw [hout], by rw [hout], ?_⟩
    intro k hk hsome
    rw [hout]
    exact List.mem_map_of_mem _ (List.mem_filter.mpr ⟨hk, hsome⟩)
  · intro hdup hc
    rcases createExt_err_inv a env _ hc with ⟨_, hm⟩ | ⟨_, hv⟩
    · exact scopeErrMsg_ne_dup a.scope hm.symm
    · rcases validateConfig_err_inv _ _ _ _ _ hv with ⟨_, hne⟩ | ⟨hm, _⟩ | ⟨hm, _⟩
      · exact hne hdup
      · exact absurd hm (by decide)
      · exact tlsErrMsg_ne_dup _ hm.symm

/-- Witness for C1: a shared key `foo` makes `Create` fail with the
duplicate-key error, no remote call and a warning naming `foo`; the
disjoint variant does not raise it. -/
theorem claim_C1_create_duplicate_keys_witness :
    (createExt (mkArgs "cluster" [("enableTraining", .s "true"), ("foo", .s "1")]
        [("foo", .s "2")]) sampleEnv).result = .error (.invalidArgumentValue dupKeysErrMsg) ∧
    (createExt (mkArgs "cluster" [("enableTraining", .s "true"), ("foo", .s "1")]
        [("foo", .s "2")]) sampleEnv).trace = [] ∧
    dupKeyWarning "foo" ∈ (createExt (mkArgs "cluster"
        [("enableTraining", .s "true"), ("foo", .s "1")] [("foo", .s "2")]) sampleEnv).warnings := by
  have h := (claim_C1_create_duplicate_keys (mkArgs "cluster"
    [("enableTraining", .s "true"), ("foo", .s "1")] [("foo", .s "2")]) sampleEnv).1
    (by decide) (by decide)
  exact ⟨h.1, h.2.1, h.2.2 "foo" (by decide) (by decide)⟩


/-- C2: when neither `enableTraining` nor `enableInference` (settings first,
protected-settings fallback) resolves to the string `true`, `Create` fails
with the invalid-argument error naming both flags; when at least one
resolves to true this error is never raised.  (Error path stated past the
scope guard and the preceding duplicate-key check.) -/
theorem claim_C2_enable_flags (a : CreateArgs) (env : CreateEnv) :
    ((ckeys a.configurationSettings).filter
        (fun k => (cget a.configurationProtectedSettings k).isSome) = [] →
      a.scope ≠ "namespace" →
      pyLower (pyStrOpt (getValueFromConfigProtectedConfig ENABLE_TRAINING a.configurationSettings
        a.configurationProtectedSettings)) ≠ "true" →
      pyLower (pyStrOpt (getValueFromConfigProtectedConfig ENABLE_INFERENCE a.configurationSettings
        a.configurationProtectedSettings)) ≠ "true" →
      (createExt a env).result = .error (.invalidArgumentValue enableFlagsErrMsg)) ∧
    ((pyLower (pyStrOpt (getValueFromConfigProtectedConfig ENABLE_TRAINING a.configurationSettings
        a.configurationProtectedSettings)) = "true" ∨
      pyLower (pyStrOpt (getValueFromConfigProtectedConfig ENABLE_INFERENCE a.configurationSettings
        a.configurationProtectedSettings)) = "true") →
      (createExt a env).result ≠ .error (.invalidArgumentValue enableFlagsErrMsg)) := by
  constructor
  · intro hdup hscope ht hi
    unfold createExt
    rw [if_neg (by simpa using hscope)]
    unfold createBody
    dsimp only
    rw [validateConfig_flags _ _ _ _ hdup ht hi]
  · intro hor hc
    rcases createExt_err_inv a env _ hc with ⟨_, hm⟩ | ⟨_, hv⟩
    · exact scopeErrMsg_ne_flags a.scope hm.symm
    · rcases validateConfig_err_inv _ _ _ _ _ hv with ⟨hm, _⟩ | ⟨_, ht, hi⟩ | ⟨hm, _⟩
      · exact absurd hm (by decide)
      · rcases hor with h | h
        · exact ht h
        · exact hi h
      · exact tlsErrMsg_ne_flags _ hm.symm

/-- Witness for C2: with both flags unset `Create` fails with the flags
error; with `enableTraining=true` the flags error is not raised. -/
theorem claim_C2_enable_flags_witness :
    (createExt (mkArgs "cluster" [] []) sampleEnv).result
      = .error (.invalidArgumentValue enableFlagsErrMsg) ∧
    (createExt (mkArgs "cluster" [("enableTraining", .s "true")] []) sampleEnv).result
      ≠ .error (.invalidArgumentValue enableFlagsErrMsg) :=
  ⟨(claim_C2_enable_flags (mkArgs "cluster" [] []) sampleEnv).1
      (by decide) (by decide) (by decide) (by decide),
   (claim_C2_enable_flags (mkArgs "cluster" [("enableTraining", .s "true")] []) sampleEnv).2
      (Or.inl (by decide))⟩

theorem getVCPC_cset_ne (key k : String) (v : Val) (cs cps : CfgMap) (h : k ≠ key) :
    getValueFromConfigProtectedConfig key (cset cs k v) cps =
    getValueFromConfigProtectedConfig key cs cps := by
  unfold getValueFromConfigProtectedConfig
  rw [cget_cset_ne _ _ _ _ h]

/-- With no usable certificate/key pair, no truthy `sslSecret` and no
`allowInsecureConnections=true`, `__validate_scoring_fe_settings` raises the
TLS remediation error (whatever the HA/AKS-migration toggles did to the
settings map first). -/
theorem validateScoringFe_tls (cs cps : CfgMap) (ns : String)
    (hcert : (truthyOpt (cget cps sslCertPemFile) && truthyOpt (cget cps sslKeyPemFile)) = false)
    (hsecret : truthyOpt (getValueFromConfigProtectedConfig SSL_SECRET cs cps) = false)
    (hinsecure : pyLower (pyStrOpt
      (getValueFromConfigProtectedConfig allowInsecureConnections cs cps)) ≠ "true") :
    validateScoringFeSettings cs cps ns = .error (.invalidArgumentValue (tlsErrMsg ns)) := by
  unfold validateScoringFeSettings
  dsimp only
  split <;> split <;> simp +decide [getVCPC_cset_ne, hcert, hsecret, hinsecure]

/-- With no duplicate key and inference enabled, `__validate_config` forwards
a scoring-frontend validation error unchanged. -/
theorem validateConfig_inference_err (fc : String → String) (cs cps : CfgMap) (ns : String)
    (hdup : (ckeys cs).filter (fun k => (cget cps k).isSome) = [])
    (hinf : pyLower (pyStrOpt
      (getValueFromConfigProtectedConfig ENABLE_INFERENCE cs cps)) = "true")
    (e : Err) (hsf : validateScoringFeSettings cs cps ns = .error e) :
    validateConfig fc cs cps ns = (.error e, [experimentalWarning]) := by
  unfold validateConfig
  rw [hdup]
  simp [hinf, hsf]

/-- With `allowInsecureConnections=true` and the node-port/ILB toggles not
both set, `__validate_scoring_fe_settings` succeeds, and the effective
`allowInsecureConnections` value is unchanged by its settings mutations. -/
theorem validateScoringFe_ok_of_insecure (cs cps : CfgMap) (ns : String)
    (hallow : pyLower (pyStrOpt
      (getValueFromConfigProtectedConfig allowInsecureConnections cs cps)) = "true")
    (hnodeilb : ¬(pyLower (pyStrOpt
        (getValueFromConfigProtectedConfig privateEndpointNodeport cs cps)) = "true" ∧
      pyLower (pyStrOpt
        (getValueFromConfigProtectedConfig privateEndpointILB cs cps)) = "true")) :
    ∃ cs1 ws1, validateScoringFeSettings cs cps ns = .ok (cs1, ws1) ∧
      getValueFromConfigProtectedConfig allowInsecureConnections cs1 cps =
      getValueFromConfigProtectedConfig allowInsecureConnections cs cps := by
  unfold validateScoringFeSettings
  dsimp only
  repeat' split
  all_goals first
    | (refine ⟨_, _, rfl, ?_⟩; simp +decide [getVCPC_cset_ne])
    | (exfalso; rename_i hcond;
        simp +decide [getVCPC_cset_ne, hallow] at hcond;
        exact hnodeilb hcond)
    | (exfalso; rename_i hcond;
        simp +decide [getVCPC_cset_ne, hallow] at hcond)

/-- With no duplicate key, inference enabled, `allowInsecureConnections=true`
and not both exposure toggles set, `__validate_config` succeeds and leaves
the TLS keys of the protected-settings map untouched. -/
theorem validateConfig_insecure_ok (fc : String → String) (cs cps : CfgMap) (ns : String)
    (hdup : (ckeys cs).filter (fun k => (cget cps k).isSome) = [])
    (hinf : pyLower (pyStrOpt
      (getValueFromConfigProtectedConfig ENABLE_INFERENCE cs cps)) = "true")
    (hallow : pyLower (pyStrOpt
      (getValueFromConfigProtectedConfig allowInsecureConnections cs cps)) = "true")
    (hnodeilb : ¬(pyLower (pyStrOpt
        (getValueFromConfigProtectedConfig privateEndpointNodeport cs cps)) = "true" ∧
      pyLower (pyStrOpt
        (getValueFromConfigProtectedConfig privateEndpointILB cs cps)) = "true")) :
    ∃ cs' cps', (validateConfig fc cs cps ns).1 = .ok (cs', cps') ∧
      cget cps' "scoringFe.sslCert" = cget cps "scoringFe.sslCert" ∧
      cget cps' "scoringFe.sslKey" = cget cps "scoringFe.sslKey" := by
  obtain ⟨cs1, ws1, hsf, hallow1⟩ := validateScoringFe_ok_of_insecure cs cps ns hallow hnodeilb
  have hssl : setUpInferenceSsl fc cs1 cps = (cs1, cps, [insecureWarning]) := by
    unfold setUpInferenceSsl
    rw [hallow1, hallow]
    simp
  refine ⟨(finalizeFlags cs1 cps
      (pyLower (pyStrOpt (getValueFromConfigProtectedConfig ENABLE_TRAINING cs cps)) == "true")
      (pyLower (pyStrOpt (getValueFromConfigProtectedConfig ENABLE_INFERENCE cs cps)) == "true")).1,
    cpop (cpop cps ENABLE_TRAINING) ENABLE_INFERENCE, ?_, ?_, ?_⟩
  · unfold validateConfig
    rw [hdup]
    simp [hinf, hsf, hssl, finalizeFlags]
  · rw [cget_cpop_ne _ _ _ (by decide), cget_cpop_ne _ _ _ (by decide)]
  · rw [cget_cpop_ne _ _ _ (by decide), cget_cpop_ne _ _ _ (by decide)]

/-- C3: with inference enabled, no certificate/key pair in protected
settings, no truthy `sslSecret` and no `allowInsecureConnections=true`,
`Create` fails with the TLS remediation error; with the same configuration
except `allowInsecureConnections` resolving to true (and the mutually
exclusive node-port/ILB pair not both set, which would fail on its own
account), validation succeeds and the TLS keys `scoringFe.sslCert` and
`scoringFe.sslKey` of the protected settings are left exactly as the caller
passed them.  (Error path stated past the scope guard and duplicate-key
check.) -/
theorem claim_C3_inference_tls (a : CreateArgs) (env : CreateEnv) :
    ((ckeys a.configurationSettings).filter
        (fun k => (cget a.configurationProtectedSettings k).isSome) = [] →
      a.scope ≠ "namespace" →
      pyLower (pyStrOpt (getValueFromConfigProtectedConfig ENABLE_INFERENCE
        a.configurationSettings a.configurationProtectedSettings)) = "true" →
      (truthyOpt (cget a.configurationProtectedSettings sslCertPemFile) &&
        truthyOpt (cget a.configurationProtectedSettings sslKeyPemFile)) = false →
      truthyOpt (getValueFromConfigProtectedConfig SSL_SECRET
        a.configurationSettings a.configurationProtectedSettings) = false →
      pyLower (pyStrOpt (getValueFromConfigProtectedConfig allowInsecureConnections
        a.configurationSettings a.configurationProtectedSettings)) ≠ "true" →
      (createExt a env).result = .error (.invalidArgumentValue
        (tlsErrMsg (effReleaseNamespace a.releaseNamespace)))) ∧
    ((ckeys a.configurationSettings).filter
        (fun k => (cget a.configurationProtectedSettings k).isSome) = [] →
      pyLower (pyStrOpt (getValueFromConfigProtectedConfig ENABLE_INFERENCE
        a.configurationSettings a.configurationProtectedSettings)) = "true" →
      pyLower (pyStrOpt (getValueFromConfigProtectedConfig allowInsecureConnections
        a.configurationSettings a.configurationProtectedSettings)) = "true" →
      ¬(pyLower (pyStrOpt (getValueFromConfigProtectedConfig privateEndpointNodeport
          a.configurationSettings a.configurationProtectedSettings)) = "true" ∧
        pyLower (pyStrOpt (getValueFromConfigProtectedConfig privateEndpointILB
          a.configurationSettings a.configurationProtectedSettings)) = "true") →
      ∃ cs' cps', (validateConfig env.fileContent a.configurationSettings
          a.configurationProtectedSettings (effReleaseNamespace a.releaseNamespace)).1
          = .ok (cs', cps') ∧
        cget cps' "scoringFe.sslCert"
          = cget a.configurationProtectedSettings "scoringFe.sslCert" ∧
        cget cps' "scoringFe.sslKey"
          = cget a.configurationProtectedSettings "scoringFe.sslKey") := by
  constructor
  · intro hdup hscope hinf hcert hsecret hinsecure
    unfold createExt
    rw [if_neg (by simpa using hscope)]
    unfold createBody
    dsimp only
    rw [validateConfig_inference_err _ _ _ _ hdup hinf _
      (validateScoringFe_tls _ _ _ hcert hsecret hinsecure)]
  · intro hdup hinf hallow hnodeilb
    exact validateConfig_insecure_ok _ _ _ _ hdup hinf hallow hnodeilb

/-- Witness for C3: inference with no TLS material fails with the TLS error;
adding `allowInsecureConnections=true` validates and adds no TLS key. -/
theorem claim_C3_inference_tls_witness :
    (createExt (mkArgs "cluster" [("enableInference", .s "true")] []) sampleEnv).result
      = .error (.invalidArgumentValue (tlsErrMsg "azureml")) ∧
    ∃ cs' cps', (validateConfig sampleEnv.fileContent
        [("enableInference", .s "true"), ("allowInsecureConnections", .s "true")] [] "azureml").1
        = .ok (cs', cps') ∧
      cget cps' "scoringFe.sslCert" = (Option.none : Option Val) ∧
      cget cps' "scoringFe.sslKey" = (Option.none : Option Val) := by
  constructor
  · exact (claim_C3_inference_tls (mkArgs "cluster" [("enableInference", .s "true")] [])
      sampleEnv).1 (by decide) (by decide) (by decide) (by decide) (by decide) (by decide)
  · have h := (claim_C3_inference_tls (mkArgs "cluster"
      [("enableInference", .s "true"), ("allowInsecureConnections", .s "true")] []) sampleEnv).2
      (by decide) (by decide) (by decide) (by decide)
    simpa using h

/-- C4 (code bug): `Create` is meant to "generate values for the extension
if none is set" (source comment, line 128), and does so for `cluster_name`,
`location`, `jobSchedulerLocation` and `cluster_name_friendly`; but the
`domain` default (line 130-131) reads the misspelled key `doamin`, so a
caller-supplied `domain` (here `example.com`) is overwritten with the
derived `eastus.cloudapp.azure.com`. -/
theorem claim_C4_domain_typo :
    (createExt (mkArgs "cluster"
        [("enableTraining", .s "true"), ("domain", .s "example.com")] []) sampleEnv).result.map
      (fun r => cget r.1.configurationSettings "domain")
      = .ok (some (.s "eastus.cloudapp.azure.com")) ∧
    Val.s "eastus.cloudapp.azure.com" ≠ Val.s "example.com" ∧
    (createExt (mkArgs "cluster"
        [("enableTraining", .s "true"), ("cluster_name", .s "mycluster"),
         ("location", .s "westus"), ("jobSchedulerLocation", .s "westus2"),
         ("cluster_name_friendly", .s "friendly")] []) sampleEnv).result.map
      (fun r => (cget r.1.configurationSettings "cluster_name",
        cget r.1.configurationSettings "location",
        cget r.1.configurationSettings "jobSchedulerLocation",
        cget r.1.configurationSettings "cluster_name_friendly"))
      = .ok (some (.s "mycluster"), some (.s "westus"), some (.s "westus2"),
          some (.s "friendly")) := by
  refine ⟨by decide, by decide, by decide⟩

/-- C5 counterexample: the scope guard only rejects the literal
`namespace`: a `Create` invocation with scope `foo` (which is not
`cluster`) proceeds past scope validation and succeeds. -/
theorem claim_C5_scope_counterexample :
    "foo" ≠ "cluster" ∧
    ((createExt (mkArgs "foo" [("enableTraining", .s "true")] []) sampleEnv).result).isOk
      = true := by decide

/-- C5 (amended): `Create` fails with the invalid-argument scope error
exactly when scope is the literal `namespace`; for any other scope value
(including values other than `cluster`) it proceeds past scope validation
into the body. -/
theorem claim_C5_scope_amended (a : CreateArgs) (env : CreateEnv) :
    (a.scope = "namespace" →
      createExt a env = ⟨.error (.invalidArgumentValue (scopeErrMsg a.scope)), [], []⟩) ∧
    (a.scope ≠ "namespace" → createExt a env = createBody a env) := by
  constructor
  · intro h
    unfold createExt
    rw [if_pos (by simpa using h)]
  · intro h
    unfold createExt
    rw [if_neg (by simpa using h)]

/-- Witness for C5 (amended): scope `namespace` is rejected with the scope
error; scope `cluster` reaches the body. -/
theorem claim_C5_scope_amended_witness :
    createExt (mkArgs "namespace" [] []) sampleEnv
      = ⟨.error (.invalidArgumentValue (scopeErrMsg "namespace")), [], []⟩ ∧
    createExt (mkArgs "cluster" [] []) sampleEnv = createBody (mkArgs "cluster" [] []) sampleEnv :=
  ⟨(claim_C5_scope_amended (mkArgs "namespace" [] []) sampleEnv).1 rfl,
   (claim_C5_scope_amended (mkArgs "cluster" [] []) sampleEnv).2 (by decide)⟩

/-- C7 counterexample: with overlapping reference lists, a concrete key gets
the value of the first matching entry, not of every present virtual key as
the claim states: `b` is present with value `2` and the absent `x` is in its
list, yet `x` ends up with `a`'s value `1`. -/
theorem claim_C7_dereference_counterexample :
    ("b", ["x"]) ∈ [("a", ["x"]), ("b", ["x"])] ∧
    cget [("a", Val.s "1"), ("b", Val.s "2")] "b" = some (.s "2") ∧
    "x" ∈ ["x"] ∧
    cget [("a", Val.s "1"), ("b", Val.s "2")] "x" = Option.none ∧
    cget (dereference [("a", ["x"]), ("b", ["x"])] [("a", Val.s "1"), ("b", Val.s "2")]) "x"
      = some (.s "1") ∧
    Val.s "1" ≠ Val.s "2" := by decide

/-- C7 (amended): the dereference pass never overwrites a key already
present in the map (for every reference mapping); and when the reference
lists of distinct entries are pairwise disjoint — as in the installer's
`reference_mapping` — every concrete key of a present virtual key's list
that is absent from the map is populated with that virtual key's value. -/
theorem claim_C7_dereference_amended (refs : List (String × List String)) (m : CfgMap) :
    (∀ k, (cget m k).isSome → cget (dereference refs m) k = cget m k) ∧
    (RefListsDisjoint refs →
      ∀ rk rl, (rk, rl) ∈ refs → ∀ v, cget m rk = some v →
      ∀ c ∈ rl, cget m c = Option.none → cget (dereference refs m) c = some v) :=
  ⟨fun k hk => dereference_preserves refs m k hk,
   fun hdisj rk rl hmem v hrk c hc habs =>
     dereference_fills refs m hdisj rk rl hmem v hrk c hc habs⟩

/-- Witness for C7 (amended), on the program's own `reference_mapping`: a
present `relayServerConnectionString` is propagated into the absent
`relayserver.relayConnectionString` and is itself left unchanged. -/
theorem claim_C7_dereference_amended_witness :
    cget (dereference referenceMapping [(RELAY_SERVER_CONNECTION_STRING, Val.s "cs")])
      RELAY_CONNECTION_STRING_KEY = some (.s "cs") ∧
    cget (dereference referenceMapping [(RELAY_SERVER_CONNECTION_STRING, Val.s "cs")])
      RELAY_SERVER_CONNECTION_STRING = some (.s "cs") :=
  ⟨(claim_C7_dereference_amended referenceMapping
      [(RELAY_SERVER_CONNECTION_STRING, Val.s "cs")]).2 (by decide)
      RELAY_SERVER_CONNECTION_STRING [RELAY_CONNECTION_STRING_KEY] (by decide)
      (Val.s "cs") (by decide) RELAY_CONNECTION_STRING_KEY (by decide) (by decide),
   (claim_C7_dereference_amended referenceMapping
      [(RELAY_SERVER_CONNECTION_STRING, Val.s "cs")]).1
      RELAY_SERVER_CONNECTION_STRING (by decide)⟩

/-- C10 counterexample: `inferenceLoadBalancerHA` is not coerced with
`lower() == 'true'`: its test is `lower() == 'false'`, so the value `1` —
which the claim says counts as false (non-HA, `DevTest`) — enables the HA
behaviour (`clusterPurpose = FastProd`). -/
theorem claim_C10_flag_coercion_counterexample :
    (validateConfig (fun _ => "") [("enableInference", .s "true"),
        ("allowInsecureConnections", .s "true"), ("inferenceLoadBalancerHA", .s "1")] []
        "azureml").1.map (fun p => cget p.1 "clusterPurpose")
      = .ok (some (.s "FastProd")) ∧
    (pyLower (pyStr (.s "1")) == "true") = false := by decide

/-- C10 (amended): each boolean flag except `inferenceLoadBalancerHA` is
treated as true exactly when the lowercased string form of its effective
value equals `true` (absent keys and any other value count as false), shown
behaviourally: the training/inference gate, the inference-path entry, the
TLS opt-in, the node-port and internal-load-balancer service-type writes,
the AKS-migration namespace write, and the log-analytics provisioning gate;
`inferenceLoadBalancerHA` is inverted — the `DevTest` (non-HA) branch is
taken exactly when the lowercased value equals `false`, so an absent key or
any other value selects `FastProd`. -/
theorem claim_C10_flag_coercion_amended (fc : String → String) (env : CreateEnv)
    (cn ns : String) (v : Val) :
    ((validateConfig fc [] [] ns).1 = .error (.invalidArgumentValue enableFlagsErrMsg)) ∧
    ((pyLower (pyStr v) ≠ "true" → (validateConfig fc [(ENABLE_TRAINING, v)] [] ns).1
        = .error (.invalidArgumentValue enableFlagsErrMsg)) ∧
      (pyLower (pyStr v) = "true" →
        ((validateConfig fc [(ENABLE_TRAINING, v)] [] ns).1).isOk = true)) ∧
    ((validateConfig fc [(ENABLE_TRAINING, .s "true"), (ENABLE_INFERENCE, v),
        (allowInsecureConnections, .s "true")] [] ns).1.map
        (fun p => (cget p.1 "clusterPurpose").isSome) = .ok (pyLower (pyStr v) == "true")) ∧
    ((pyLower (pyStr v) = "true" →
        ((validateConfig fc [(ENABLE_INFERENCE, .s "true"), (allowInsecureConnections, v)]
          [] ns).1).isOk = true) ∧
      (pyLower (pyStr v) ≠ "true" →
        (validateConfig fc [(ENABLE_INFERENCE, .s "true"), (allowInsecureConnections, v)]
          [] ns).1 = .error (.invalidArgumentValue (tlsErrMsg ns)))) ∧
    ((validateConfig fc [(ENABLE_INFERENCE, .s "true"), (allowInsecureConnections, .s "true"),
        (privateEndpointNodeport, v)] [] ns).1.map
        (fun p => cget p.1 "scoringFe.serviceType.nodePort")
        = .ok (if pyLower (pyStr v) = "true" then some (.b true) else Option.none)) ∧
    ((validateConfig fc [(ENABLE_INFERENCE, .s "true"), (allowInsecureConnections, .s "true"),
        (privateEndpointILB, v)] [] ns).1.map
        (fun p => cget p.1 "scoringFe.serviceType.internalLoadBalancer")
        = .ok (if pyLower (pyStr v) = "true" then some (.b true) else Option.none)) ∧
    ((validateConfig fc [(ENABLE_INFERENCE, .s "true"), (allowInsecureConnections, .s "true"),
        (IS_AKS_MIGRATION, v)] [] ns).1.map (fun p => cget p.1 "scoringFe.namespace")
        = .ok (if pyLower (pyStr v) = "true" then some (.s "default") else Option.none)) ∧
    ((validateConfig fc [(ENABLE_INFERENCE, .s "true"), (allowInsecureConnections, .s "true"),
        (inferenceLoadBalancerHA, v)] [] ns).1.map (fun p => cget p.1 "clusterPurpose")
        = .ok (some (.s (if pyLower (pyStr v) = "false" then "DevTest" else "FastProd")))) ∧
    ((RemoteCall.logAnalyticsCreate ∈
        (createRequiredResource env cn [(LOG_ANALYTICS_WS_ENABLED, v)] []).2.2
        ↔ pyLower (pyStr v) = "true") ∧
      RemoteCall.logAnalyticsCreate ∉ (createRequiredResource env cn [] []).2.2) := by
  refine ⟨?_, ⟨?_, ?_⟩, ?_, ⟨?_, ?_⟩, ?_, ?_, ?_, ?_, ⟨?_, ?_⟩⟩
  · simp +decide [validateConfig, getValueFromConfigProtectedConfig, cget, ckeys, pyStrOpt,
      ENABLE_TRAINING, ENABLE_INFERENCE]
  · intro hb
    simp +decide [validateConfig, getValueFromConfigProtectedConfig, cget, ckeys, pyStrOpt,
      ENABLE_TRAINING, ENABLE_INFERENCE, hb]
  · intro hb
    simp +decide [validateConfig, validateScoringFeSettings, setUpInferenceSsl, finalizeFlags,
      getValueFromConfigProtectedConfig, cget, cset, cpop, ckeys, pyStrOpt,
      ENABLE_TRAINING, ENABLE_INFERENCE, Except.isOk, Except.toBool, hb]
  · by_cases hb : pyLower (pyStr v) = "true" <;>
      simp +decide [validateConfig, validateScoringFeSettings, setUpInferenceSsl,
        setInferenceSslFromSecret, finalizeFlags, getValueFromConfigProtectedConfig,
        cget, cset, cpop, ckeys, pyStrOpt, truthyOpt, truthy,
        ENABLE_TRAINING, ENABLE_INFERENCE, allowInsecureConnections, inferenceLoadBalancerHA,
        IS_AKS_MIGRATION, SSL_SECRET, sslCertPemFile, sslKeyPemFile,
        privateEndpointNodeport, privateEndpointILB, Except.map, hb]
  · intro hb
    simp +decide [validateConfig, validateScoringFeSettings, setUpInferenceSsl,
      setInferenceSslFromSecret, finalizeFlags, getValueFromConfigProtectedConfig,
      cget, cset, cpop, ckeys, pyStrOpt, truthyOpt, truthy,
      ENABLE_TRAINING, ENABLE_INFERENCE, allowInsecureConnections, inferenceLoadBalancerHA,
      IS_AKS_MIGRATION, SSL_SECRET, sslCertPemFile, sslKeyPemFile,
      privateEndpointNodeport, privateEndpointILB, Except.isOk, Except.toBool, hb]
  · intro hb
    simp +decide [validateConfig, validateScoringFeSettings, setUpInferenceSsl,
      setInferenceSslFromSecret, finalizeFlags, getValueFromConfigProtectedConfig,
      cget, cset, cpop, ckeys, pyStrOpt, truthyOpt, truthy,
      ENABLE_TRAINING, ENABLE_INFERENCE, allowInsecureConnections, inferenceLoadBalancerHA,
      IS_AKS_MIGRATION, SSL_SECRET, sslCertPemFile, sslKeyPemFile,
      privateEndpointNodeport, privateEndpointILB, hb]
  · by_cases hb : pyLower (pyStr v) = "true" <;>
      simp +decide [validateConfig, validateScoringFeSettings, setUpInferenceSsl,
        setInferenceSslFromSecret, finalizeFlags, getValueFromConfigProtectedConfig,
        cget, cset, cpop, ckeys, pyStrOpt, truthyOpt, truthy,
        ENABLE_TRAINING, ENABLE_INFERENCE, allowInsecureConnections, inferenceLoadBalancerHA,
        IS_AKS_MIGRATION, SSL_SECRET, sslCertPemFile, sslKeyPemFile,
        privateEndpointNodeport, privateEndpointILB, Except.map, hb]
  · by_cases hb : pyLower (pyStr v) = "true" <;>
      simp +decide [validateConfig, validateScoringFeSettings, setUpInferenceSsl,
        setInferenceSslFromSecret, finalizeFlags, getValueFromConfigProtectedConfig,
        cget, cset, cpop, ckeys, pyStrOpt, truthyOpt, truthy,
        ENABLE_TRAINING, ENABLE_INFERENCE, allowInsecureConnections, inferenceLoadBalancerHA,
        IS_AKS_MIGRATION, SSL_SECRET, sslCertPemFile, sslKeyPemFile,
        privateEndpointNodeport, privateEndpointILB, Except.map, hb]
  · by_cases hb : pyLower (pyStr v) = "true" <;>
      simp +decide [validateConfig, validateScoringFeSettings, setUpInferenceSsl,
        setInferenceSslFromSecret, finalizeFlags, getValueFromConfigProtectedConfig,
        cget, cset, cpop, ckeys, pyStrOpt, truthyOpt, truthy,
        ENABLE_TRAINING, ENABLE_INFERENCE, allowInsecureConnections, inferenceLoadBalancerHA,
        IS_AKS_MIGRATION, SSL_SECRET, sslCertPemFile, sslKeyPemFile,
        privateEndpointNodeport, privateEndpointILB, Except.map, hb]
  · by_cases hb : pyLower (pyStr v) = "false" <;>
      simp +decide [validateConfig, validateScoringFeSettings, setUpInferenceSsl,
        setInferenceSslFromSecret, finalizeFlags, getValueFromConfigProtectedConfig,
        cget, cset, cpop, ckeys, pyStrOpt, truthyOpt, truthy,
        ENABLE_TRAINING, ENABLE_INFERENCE, allowInsecureConnections, inferenceLoadBalancerHA,
        IS_AKS_MIGRATION, SSL_SECRET, sslCertPemFile, sslKeyPemFile,
        privateEndpointNodeport, privateEndpointILB, Except.map, hb]
  · by_cases hb : pyLower (pyStr v) = "true" <;>
      simp +decide [createRequiredResource, cget, cset, ckeys, truthyOpt, truthy,
        LOG_ANALYTICS_WS_ENABLED, AZURE_LOG_ANALYTICS_CONNECTION_STRING,
        AZURE_LOG_ANALYTICS_ENABLED_KEY, AZURE_LOG_ANALYTICS_CUSTOMER_ID_KEY,
        RELAY_SERVER_CONNECTION_STRING, SERVICE_BUS_CONNECTION_STRING,
        HC_RESOURCE_ID_KEY, RELAY_HC_NAME_KEY, SERVICE_BUS_RESOURCE_ID_KEY,
        SERVICE_BUS_TOPIC_SUB_MAPPING_KEY, SERVICE_BUS_COMPUTE_STATE_TOPIC,
        SERVICE_BUS_COMPUTE_STATE_SUB, SERVICE_BUS_JOB_STATE_TOPIC,
        SERVICE_BUS_JOB_STATE_SUB, hb]
  · simp +decide [createRequiredResource, cget, cset, ckeys, truthyOpt, truthy,
      LOG_ANALYTICS_WS_ENABLED, AZURE_LOG_ANALYTICS_CONNECTION_STRING,
      AZURE_LOG_ANALYTICS_ENABLED_KEY, AZURE_LOG_ANALYTICS_CUSTOMER_ID_KEY,
      RELAY_SERVER_CONNECTION_STRING, SERVICE_BUS_CONNECTION_STRING,
      HC_RESOURCE_ID_KEY, RELAY_HC_NAME_KEY, SERVICE_BUS_RESOURCE_ID_KEY,
      SERVICE_BUS_TOPIC_SUB_MAPPING_KEY, SERVICE_BUS_COMPUTE_STATE_TOPIC,
      SERVICE_BUS_COMPUTE_STATE_SUB, SERVICE_BUS_JOB_STATE_TOPIC, SERVICE_BUS_JOB_STATE_SUB]

/-- Witness for C10 (amended): `enableTraining` set to `yes` counts as
false (flags error); set to `True` it counts as true (validation passes). -/
theorem claim_C10_flag_coercion_amended_witness :
    (validateConfig (fun _ => "") [("enableTraining", Val.s "yes")] [] "azureml").1
      = .error (.invalidArgumentValue enableFlagsErrMsg) ∧
    ((validateConfig (fun _ => "") [("enableTraining", Val.s "True")] [] "azureml").1).isOk
      = true :=
  ⟨(claim_C10_flag_coercion_amended (fun _ => "") sampleEnv "clu" "azureml" (Val.s "yes")).2.1.1
      (by decide),
   (claim_C10_flag_coercion_amended (fun _ => "") sampleEnv "clu" "azureml" (Val.s "True")).2.1.2
      (by decide)⟩

/-! The `Update` operation (source lines 172-295): normalization, the
confirmation prompt, and the re-derivation of missing protected connection
strings, with the read-only lookups supplied by an environment. -/

/-- Environment of an `Update` invocation: the three read-only lookups (the
retrieved string on success, the HTTP status code of the error response on
failure), the user's answer to a confirmation prompt, and the file system. -/
structure UpdateEnv where
  subscriptionId : String
  logAnalyticsLookup : Except Nat String
  relayLookup : Except Nat String
  serviceBusLookup : Except Nat String
  userConfirms : Bool
  fileContent : String → String

/-- Arguments of `AzureMLKubernetes.Update` that the embedded logic reads. -/
structure UpdateArgs where
  resourceGroupName : String
  clusterName : String
  autoUpgradeMinorVersion : Option Bool
  releaseTrain : Option String
  version : Option String
  configurationSettings : CfgMap
  configurationProtectedSettings : CfgMap
  yes : Bool

/-- The `PatchExtension` model object `Update` returns. -/
structure PatchExtension where
  autoUpgradeMinorVersion : Option Bool
  releaseTrain : Option String
  version : Option String
  configurationSettings : CfgMap
  configurationProtectedSettings : CfgMap
deriving Repr, DecidableEq

/-- Source `__normalize_config` (lines 297-320): fold the three
inference-related toggles, when present, into derived settings keys. -/
def normalizeConfig (cs cps : CfgMap) : CfgMap :=
  let cs := match getValueFromConfigProtectedConfig inferenceLoadBalancerHA cs cps with
    | Option.none => cs
    | some v =>
      if pyLower (pyStr v) == "false" then cset cs "clusterPurpose" (.s "DevTest")
      else cset cs "clusterPurpose" (.s "FastProd")
  let cs := match getValueFromConfigProtectedConfig privateEndpointNodeport cs cps with
    | Option.none => cs
    | some v => cset cs "scoringFe.serviceType.nodePort" (.b (pyLower (pyStr v) == "true"))
  match getValueFromConfigProtectedConfig privateEndpointILB cs cps with
  | Option.none => cs
  | some v =>
    cset cs "scoringFe.serviceType.internalLoadBalancer" (.b (pyLower (pyStr v) == "true"))

/-- Python `"nodeSelector" in key`: substring test over character lists. -/
def listHasSub (sub : List Char) : List Char → Bool
  | [] => sub.isEmpty
  | c :: rest => sub.isPrefixOf (c :: rest) || listHasSub sub rest

/-- Source `_check_nodeselector_existed` (lines 639-647). -/
def checkNodeselectorExisted (cs cps : CfgMap) : Bool :=
  (ckeys cs ++ ckeys cps).any (fun k => listHasSub "nodeSelector".data k.data)

/-- `user_confirmation_factory`: with `--yes` the prompt is skipped,
otherwise the user's refusal aborts the operation. -/
def userConfirmation (yes userConfirms : Bool) : Except Err Unit :=
  if yes then .ok () else if userConfirms then .ok () else .error .operationCancelled

/-- Source `Update` lines 177-248: when any settings key is supplied, build
the warning message from the risk toggles and, when a workload category is
impacted (or the log-analytics workspace is being re-enabled), require
confirmation. -/
def updateConfirm (a : UpdateArgs) (env : UpdateEnv) (cs cps : CfgMap) : Except Err Unit :=
  if cs.length > 0 then
    let disableTraining := match getValueFromConfigProtectedConfig ENABLE_TRAINING cs cps with
      | Option.none => false
      | some v => pyLower (pyStr v) == "false"
    let disableInference := match getValueFromConfigProtectedConfig ENABLE_INFERENCE cs cps with
      | Option.none => false
      | some v => pyLower (pyStr v) == "false"
    let disableNvidia :=
      match getValueFromConfigProtectedConfig installNvidiaDevicePlugin cs cps with
      | Option.none => false
      | some v => pyLower (pyStr v) == "false"
    let hasAllowInsecure :=
      (getValueFromConfigProtectedConfig allowInsecureConnections cs cps).isSome
    let hasNodeport := (getValueFromConfigProtectedConfig privateEndpointNodeport cs cps).isSome
    let hasIlb := (getValueFromConfigProtectedConfig privateEndpointILB cs cps).isSome
    let hasNodeSelector := checkNodeselectorExisted cs cps
    let enableLogAnalytics :=
      match getValueFromConfigProtectedConfig LOG_ANALYTICS_WS_ENABLED cs cps with
      | Option.none => false
      | some v => pyLower (pyStr v) == "true"
    let impactScenario := if disableTraining || disableNvidia || hasNodeSelector then "jobs" else ""
    let impactScenario :=
      if disableInference || disableNvidia || hasAllowInsecure || hasNodeport || hasIlb ||
          hasNodeSelector then
        if impactScenario == "" then "online endpoints and deployments"
        else impactScenario ++ ", online endpoints and deployments"
      else impactScenario
    if impactScenario != "" then userConfirmation a.yes env.userConfirms
    else if enableLogAnalytics then userConfirmation a.yes env.userConfirms
    else .ok ()
  else .ok ()

/-- Source `Update` lines 250-289: when any protected-settings key is
supplied, re-derive the missing connection strings.  A Log Analytics lookup
failure of any kind is swallowed (logged, key left absent); a Relay or
Service Bus lookup failure is fatal — resource-not-found on HTTP 404, a
generic response error otherwise.  Then the protected map is dereferenced,
and when both PEM keys are present the SSL material is re-encoded from
files. -/
def updateProtectedPhase (env : UpdateEnv) (cps : CfgMap) : Except Err CfgMap :=
  if cps.length > 0 then
    let cps1 := if (cget cps AZURE_LOG_ANALYTICS_CONNECTION_STRING).isSome then cps
      else match env.logAnalyticsLookup with
        | .ok sharedKey => cset cps AZURE_LOG_ANALYTICS_CONNECTION_STRING (.s sharedKey)
        | .error _ => cps
    let stepRelay : Except Err CfgMap :=
      if (cget cps1 RELAY_SERVER_CONNECTION_STRING).isSome then .ok cps1
      else match env.relayLookup with
        | .ok conn => .ok (cset cps1 RELAY_SERVER_CONNECTION_STRING (.s conn))
        | .error code =>
          if code == 404 then .error (.resourceNotFound "Relay server not found.")
          else .error (.azureResponse "Failed to get relay connection string.")
    match stepRelay with
    | .error e => .error e
    | .ok cps2 =>
      let stepSb : Except Err CfgMap :=
        if (cget cps2 SERVICE_BUS_CONNECTION_STRING).isSome then .ok cps2
        else match env.serviceBusLookup with
          | .ok conn => .ok (cset cps2 SERVICE_BUS_CONNECTION_STRING (.s conn))
          | .error code =>
            if code == 404 then .error (.resourceNotFound "Service bus not found.")
            else .error (.azureResponse "Failed to get service bus connection string.")
      match stepSb with
      | .error e => .error e
      | .ok cps3 =>
        let cps4 := dereference referenceMapping cps3
        if (cget cps4 sslKeyPemFile).isSome && (cget cps4 sslCertPemFile).isSome then
          .ok (setInferenceSslFromFile env.fileContent cps4 sslCertPemFile sslKeyPemFile)
        else .ok cps4
  else .ok cps

/-- Source `Update` (lines 172-295): normalize, confirm, re-derive the
protected settings, and return the patch manifest. -/
def update (a : UpdateArgs) (env : UpdateEnv) : Except Err PatchExtension :=
  let cs := normalizeConfig a.configurationSettings a.configurationProtectedSettings
  match updateConfirm a env cs a.configurationProtectedSettings with
  | .error e => .error e
  | .ok _ =>
    match updateProtectedPhase env a.configurationProtectedSettings with
    | .error e => .error e
    | .ok cps' =>
      .ok { autoUpgradeMinorVersion := a.autoUpgradeMinorVersion,
            releaseTrain := a.releaseTrain,
            version := a.version,
            configurationSettings := cs,
            configurationProtectedSettings := cps' }

theorem updateConfirm_yes (a : UpdateArgs) (env : UpdateEnv) (cs cps : CfgMap)
    (h : a.yes = true) : updateConfirm a env cs cps = .ok () := by
  unfold updateConfirm userConfirmation
  simp [h]

theorem update_yes (a : UpdateArgs) (env : UpdateEnv) (h : a.yes = true) :
    update a env =
      (match updateProtectedPhase env a.configurationProtectedSettings with
        | .error e => .error e
        | .ok cps' =>
          .ok { autoUpgradeMinorVersion := a.autoUpgradeMinorVersion,
                releaseTrain := a.releaseTrain,
                version := a.version,
                configurationSettings :=
                  normalizeConfig a.configurationSettings a.configurationProtectedSettings,
                configurationProtectedSettings := cps' }) := by
  unfold update
  dsimp only
  rw [updateConfirm_yes a env _ _ h]

theorem dereference_refMapping_la (m : CfgMap) :
    cget (dereference referenceMapping m) AZURE_LOG_ANALYTICS_CONNECTION_STRING =
    cget m AZURE_LOG_ANALYTICS_CONNECTION_STRING :=
  dereference_untouched _ _ _ (by decide)

/-- A failed Log Analytics lookup is non-fatal during `Update`: the phase
succeeds (here with the other two lookups fine) and the connection-string
key stays absent. -/
theorem updateProtectedPhase_la_nonfatal (env : UpdateEnv) (cps : CfgMap) (c : Nat)
    (rconn sconn : String)
    (hne : cps ≠ [])
    (hla : cget cps AZURE_LOG_ANALYTICS_CONNECTION_STRING = Option.none)
    (hlaerr : env.logAnalyticsLookup = .error c)
    (hr : env.relayLookup = .ok rconn)
    (hs : env.serviceBusLookup = .ok sconn) :
    ∃ cps', updateProtectedPhase env cps = .ok cps' ∧
      cget cps' AZURE_LOG_ANALYTICS_CONNECTION_STRING = Option.none := by
  have hlen : cps.length > 0 := by
    cases cps
    · exact absurd rfl hne
    · simp
  unfold updateProtectedPhase
  rw [if_pos hlen, hlaerr, hr, hs, hla]
  simp only [Option.isSome_none, Bool.false_eq_true, if_false]
  by_cases h1 : (cget cps RELAY_SERVER_CONNECTION_STRING).isSome <;>
    by_cases h2 : (cget cps SERVICE_BUS_CONNECTION_STRING).isSome <;>
    simp +decide [h1, h2, cget_cset_ne] <;>
    split <;>
    (refine ⟨_, rfl, ?_⟩;
      simp +decide [setInferenceSslFromFile, cget_cset_ne, dereference_refMapping_la, hla])

/-- A lookup at a key other than the Log Analytics connection string is
unchanged by the Log Analytics step of `Update`. -/
theorem cget_laStep (env : UpdateEnv) (cps : CfgMap) (k : String)
    (h : k ≠ AZURE_LOG_ANALYTICS_CONNECTION_STRING) :
    cget (if (cget cps AZURE_LOG_ANALYTICS_CONNECTION_STRING).isSome then cps
      else match env.logAnalyticsLookup with
        | .ok sharedKey => cset cps AZURE_LOG_ANALYTICS_CONNECTION_STRING (.s sharedKey)
        | .error _ => cps) k = cget cps k := by
  split
  · rfl
  · cases env.logAnalyticsLookup with
    | ok s => exact cget_cset_ne _ _ _ _ (fun hh => h hh.symm)
    | error e => rfl

/-- A failed Relay lookup is fatal during `Update`: resource-not-found for
HTTP 404, a generic response error otherwise. -/
theorem updateProtectedPhase_relay_fatal (env : UpdateEnv) (cps : CfgMap) (c : Nat)
    (hne : cps ≠ [])
    (hrel : cget cps RELAY_SERVER_CONNECTION_STRING = Option.none)
    (hrerr : env.relayLookup = .error c) :
    updateProtectedPhase env cps =
      if c == 404 then .error (.resourceNotFound "Relay server not found.")
      else .error (.azureResponse "Failed to get relay connection string.") := by
  have hlen : cps.length > 0 := by
    cases cps
    · exact absurd rfl hne
    · simp
  unfold updateProtectedPhase
  rw [if_pos hlen, hrerr]
  dsimp only
  simp +decide [cget_laStep, hrel]
  by_cases h4 : c = 404 <;> simp [h4]

/-- A failed Service Bus lookup is fatal during `Update` (relay key already
present here): resource-not-found for HTTP 404, a generic response error
otherwise. -/
theorem updateProtectedPhase_sb_fatal (env : UpdateEnv) (cps : CfgMap) (c : Nat)
    (hne : cps ≠ [])
    (hrel : (cget cps RELAY_SERVER_CONNECTION_STRING).isSome)
    (hsb : cget cps SERVICE_BUS_CONNECTION_STRING = Option.none)
    (hserr : env.serviceBusLookup = .error c) :
    updateProtectedPhase env cps =
      if c == 404 then .error (.resourceNotFound "Service bus not found.")
      else .error (.azureResponse "Failed to get service bus connection string.") := by
  have hlen : cps.length > 0 := by
    cases cps
    · exact absurd rfl hne
    · simp
  unfold updateProtectedPhase
  rw [if_pos hlen, hserr]
  dsimp only
  simp +decide [cget_laStep, hrel, hsb]
  by_cases h4 : c = 404 <;> simp [h4]

/-- Concrete `Update` arguments used by the closed theorems
(confirmation skipped via `--yes`). -/
def mkUpdateArgs (cs cps : CfgMap) : UpdateArgs where
  resourceGroupName := "rg"
  clusterName := "clu"
  autoUpgradeMinorVersion := Option.none
  releaseTrain := Option.none
  version := Option.none
  configurationSettings := cs
  configurationProtectedSettings := cps
  yes := true

/-- Concrete `Update` environment used by the closed theorems. -/
def mkUpdateEnv (la relay sb : Except Nat String) : UpdateEnv where
  subscriptionId := "sub"
  logAnalyticsLookup := la
  relayLookup := relay
  serviceBusLookup := sb
  userConfirms := true
  fileContent := fun _ => ""

/-- C6 counterexample: the relay connection-string key is absent and the
relay lookup fails with 404 (not found); `Update` raises a fatal
resource-not-found error instead of logging and leaving the key absent as
the claim states. -/
theorem claim_C6_update_lookup_counterexample :
    update (mkUpdateArgs [] [("foo", Val.s "1")])
        (mkUpdateEnv (.ok "k") (.error 404) (.ok "sb"))
      = .error (.resourceNotFound "Relay server not found.") := by decide

/-- C6 (amended): during `Update` with a nonempty protected-settings map,
the three absent connection strings are re-derived as follows: a Log
Analytics lookup failure of any kind is non-fatal (the key is left absent
and the update proceeds), while a Relay or Service Bus lookup failure is
fatal as a resource-not-found error on HTTP 404 and as a generic response
error on any other failure.  The first conjunct ties the phase to `Update`
(with confirmation skipped via `--yes`). -/
theorem claim_C6_update_lookup_amended (a : UpdateArgs) (env : UpdateEnv) (cps : CfgMap)
    (c : Nat) (rconn sconn : String) :
    (a.yes = true → update a env =
      (match updateProtectedPhase env a.configurationProtectedSettings with
        | .error e => .error e
        | .ok cps2 =>
          .ok { autoUpgradeMinorVersion := a.autoUpgradeMinorVersion,
                releaseTrain := a.releaseTrain,
                version := a.version,
                configurationSettings :=
                  normalizeConfig a.configurationSettings a.configurationProtectedSettings,
                configurationProtectedSettings := cps2 })) /\
    (cps ≠ [] → cget cps AZURE_LOG_ANALYTICS_CONNECTION_STRING = Option.none →
      env.logAnalyticsLookup = .error c → env.relayLookup = .ok rconn →
      env.serviceBusLookup = .ok sconn →
      ∃ cps2, updateProtectedPhase env cps = .ok cps2 /\
        cget cps2 AZURE_LOG_ANALYTICS_CONNECTION_STRING = Option.none) /\
    (cps ≠ [] → cget cps RELAY_SERVER_CONNECTION_STRING = Option.none →
      env.relayLookup = .error c →
      updateProtectedPhase env cps =
        if c == 404 then .error (.resourceNotFound "Relay server not found.")
        else .error (.azureResponse "Failed to get relay connection string.")) /\
    (cps ≠ [] → (cget cps RELAY_SERVER_CONNECTION_STRING).isSome →
      cget cps SERVICE_BUS_CONNECTION_STRING = Option.none →
      env.serviceBusLookup = .error c →
      updateProtectedPhase env cps =
        if c == 404 then .error (.resourceNotFound "Service bus not found.")
        else .error (.azureResponse "Failed to get service bus connection string.")) :=
  ⟨fun h => update_yes a env h,
   fun hne hla hlaerr hr hs => updateProtectedPhase_la_nonfatal env cps c rconn sconn
     hne hla hlaerr hr hs,
   fun hne hrel hrerr => updateProtectedPhase_relay_fatal env cps c hne hrel hrerr,
   fun hne hrel hsb hserr => updateProtectedPhase_sb_fatal env cps c hne hrel hsb hserr⟩

/-- Witness for C6 (amended): a Log Analytics failure (HTTP 500) leaves the
key absent and the phase succeeds; a Service Bus 404 with the relay key
present is fatal as resource-not-found. -/
theorem claim_C6_update_lookup_amended_witness :
    (∃ cps2, updateProtectedPhase (mkUpdateEnv (.error 500) (.ok "rc") (.ok "sc"))
        [("foo", Val.s "1")] = .ok cps2 /\
      cget cps2 AZURE_LOG_ANALYTICS_CONNECTION_STRING = Option.none) /\
    updateProtectedPhase (mkUpdateEnv (.error 500) (.ok "rc") (.error 404))
        [("relayServerConnectionString", Val.s "rc")]
      = .error (.resourceNotFound "Service bus not found.") := by
  constructor
  · exact (claim_C6_update_lookup_amended (mkUpdateArgs [] [])
      (mkUpdateEnv (.error 500) (.ok "rc") (.ok "sc"))
      [("foo", Val.s "1")] 500 "rc" "sc").2.1
      (by decide) (by decide) rfl rfl rfl
  · have h := (claim_C6_update_lookup_amended (mkUpdateArgs [] [])
      (mkUpdateEnv (.error 500) (.ok "rc") (.error 404))
      [("relayServerConnectionString", Val.s "rc")] 404 "rc" "sc").2.2.2
      (by decide) (by decide) (by decide) rfl
    simpa using h

/-! The alerts-management argument action `AddConditions`
(`src/alertsmanagement/azext_alertsmanagement/generated/action.py`,
lines 22-55): tokens of the form `key=value` are grouped with
`defaultdict(list)` by raw key (Python dict insertion order), then projected
into a fixed-shape record by lowercased key. -/

/-- Python `x.split('=', 1)` followed by pair unpacking: `none` when `x`
holds no `=` (the unpacking raises `ValueError`), else the text before the
first `=` and everything after it. -/
def splitFirstEqAux (acc : List Char) : List Char → Option (String × String)
  | [] => Option.none
  | c :: rest =>
    if c == '=' then some (⟨acc.reverse⟩, ⟨rest⟩) else splitFirstEqAux (c :: acc) rest

/-- Split a token on its first `=`. -/
def splitFirstEq (x : String) : Option (String × String) := splitFirstEqAux [] x.data

/-- The grouping loop consumes the whole token generator before projection,
so one malformed token anywhere fails the call: split every token or fail. -/
def traverseSplit : List String → Option (List (String × String))
  | [] => some []
  | x :: rest =>
    match splitFirstEq x with
    | Option.none => Option.none
    | some p => (traverseSplit rest).map (p :: ·)

/-- `properties[k].append(v)` on a `defaultdict(list)`: append to the raw
key's group, creating it at the end on first occurrence. -/
def addToGroup : List (String × List String) → String → String → List (String × List String)
  | [], k, v => [(k, [v])]
  | (k0, vs) :: rest, k, v =>
    if k0 == k then (k0, vs ++ [v]) :: rest else (k0, vs) :: addToGroup rest k v

/-- The grouping loop of `get_action` (lines 29-32). -/
def groupPairs (ps : List (String × String)) : List (String × List String) :=
  ps.foldl (fun g p => addToGroup g p.1 p.2) []

/-- The dictionary `d` built by `AddConditions.get_action`. -/
structure ConditionsRec where
  field : Option String := Option.none
  operator : Option String := Option.none
  values : Option (List String) := Option.none
deriving Repr, DecidableEq

def conditionsErrMsg (k : String) : String :=
  "Unsupported Key " ++ k ++ " is provided for parameter conditions. All possible keys are: field, operator, values"

def usageErrMsg (optionString : String) : String :=
  "usage error: " ++ optionString ++ " [KEY=VALUE ...]"

/-- The projection loop of `AddConditions.get_action` (lines 36-53):
dispatch on the lowercased raw key, `field` and `operator` taking the
group's first value, `values` the whole group, later groups overwriting
earlier ones; an unrecognized key raises.  (A group is never empty; the
empty case recurses to keep the function total.) -/
def projectConditions : ConditionsRec → List (String × List String) → Except String ConditionsRec
  | d, [] => .ok d
  | d, (k, v) :: rest =>
    let kl := pyLower k
    if kl == "field" then
      match v with
      | v0 :: _ => projectConditions { d with field := some v0 } rest
      | [] => projectConditions d rest
    else if kl == "operator" then
      match v with
      | v0 :: _ => projectConditions { d with operator := some v0 } rest
      | [] => projectConditions d rest
    else if kl == "values" then projectConditions { d with values := some v } rest
    else .error (conditionsErrMsg k)

/-- Source `AddConditions.get_action` (lines 27-55). -/
def getActionConditions (values : List String) (optionString : String) :
    Except String ConditionsRec :=
  match traverseSplit values with
  | Option.none => .error (usageErrMsg optionString)
  | some pairs => projectConditions {} (groupPairs pairs)

/-- First group whose raw key is `k` (Python dict lookup). -/
def glookup : List (String × List String) → String → Option (List String)
  | [], _ => Option.none
  | (k, vs) :: rest, key => if k == key then some vs else glookup rest key

/-- First group whose LOWERCASED key is `kl`. -/
def findLow : List (String × List String) → String → Option (List String)
  | [], _ => Option.none
  | (k, vs) :: rest, kl => if pyLower k == kl then some vs else findLow rest kl

/-- The values carried by a given raw key, in order. -/
def valuesOfKey (ps : List (String × String)) (k : String) : List String :=
  (ps.filter (fun p => p.1 == k)).map Prod.snd

/-- The multimap of the C9 claim: the values grouped under a lowercased
key, in order. -/
def valuesOfLow (ps : List (String × String)) (kl : String) : List String :=
  (ps.filter (fun p => pyLower p.1 == kl)).map Prod.snd

theorem traverseSplit_some (values : List String)
    (h : ∀ x ∈ values, (splitFirstEq x).isSome) :
    traverseSplit values = some (values.filterMap splitFirstEq) := by
  induction values with
  | nil => rfl
  | cons x rest ih =>
    have hx := h x (List.mem_cons_self x rest)
    obtain ⟨p, hp⟩ := Option.isSome_iff_exists.mp hx
    simp [traverseSplit, hp, ih (fun y hy => h y (List.mem_cons_of_mem x hy))]

theorem traverseSplit_none (values : List String) (x : String)
    (hx : x ∈ values) (h : splitFirstEq x = Option.none) :
    traverseSplit values = Option.none := by
  induction values with
  | nil => cases hx
  | cons y rest ih =>
    rcases List.mem_cons.mp hx with heq | hmem
    · subst heq
      simp [traverseSplit, h]
    · unfold traverseSplit
      cases hsp : splitFirstEq y
      · rfl
      · simp [ih hmem]

theorem valuesOfKey_cons (p : String × String) (ps : List (String × String)) (key : String) :
    valuesOfKey (p :: ps) key =
      if p.1 = key then p.2 :: valuesOfKey ps key else valuesOfKey ps key := by
  by_cases h : p.1 = key <;> simp [valuesOfKey, h]

theorem valuesOfLow_cons (p : String × String) (ps : List (String × String)) (kl : String) :
    valuesOfLow (p :: ps) kl =
      if pyLower p.1 = kl then p.2 :: valuesOfLow ps kl else valuesOfLow ps kl := by
  by_cases h : pyLower p.1 = kl <;> simp [valuesOfLow, h]

theorem addToGroup_keys (g : List (String × List String)) (k : String) (v : String) :
    (addToGroup g k v).map Prod.fst =
      if k ∈ g.map Prod.fst then g.map Prod.fst else g.map Prod.fst ++ [k] := by
  induction g with
  | nil => simp [addToGroup]
  | cons e rest ih =>
    obtain ⟨k0, vs⟩ := e
    by_cases hk : k0 = k
    · subst hk
      simp [addToGroup]
    · simp only [addToGroup, beq_iff_eq, hk, if_false, List.map_cons]
      rw [ih]
      by_cases hm : k ∈ rest.map Prod.fst <;>
        simp [hm, show ¬k = k0 from fun hh => hk hh.symm]

theorem addToGroup_keys_nodup (g : List (String × List String)) (k : String) (v : String)
    (h : (g.map Prod.fst).Nodup) : ((addToGroup g k v).map Prod.fst).Nodup := by
  rw [addToGroup_keys]
  split
  · exact h
  · rename_i hk
    rw [List.nodup_append]
    refine ⟨h, List.nodup_singleton k, ?_⟩
    intro a ha hmem
    rw [List.mem_singleton] at hmem
    exact hk (hmem ▸ ha)

theorem addToGroup_vals_ne (g : List (String × List String)) (k : String) (v : String)
    (h : ∀ e ∈ g, e.2 ≠ []) : ∀ e ∈ addToGroup g k v, e.2 ≠ [] := by
  induction g with
  | nil =>
    intro e he
    simp [addToGroup] at he
    simp [he]
  | cons e0 rest ih =>
    obtain ⟨k0, vs⟩ := e0
    intro e he
    by_cases hk : k0 = k
    · subst hk
      simp [addToGroup] at he
      rcases he with heq | hmem
      · simp [heq]
      · exact h e (List.mem_cons_of_mem _ hmem)
    · simp only [addToGroup, beq_iff_eq, hk, if_false] at he
      rcases List.mem_cons.mp he with heq | hmem
      · exact heq ▸ h (k0, vs) (List.mem_cons_self _ _)
      · exact ih (fun e' he' => h e' (List.mem_cons_of_mem _ he')) e hmem

theorem glookup_addToGroup (g : List (String × List String)) (k : String) (v : String)
    (key : String) :
    glookup (addToGroup g k v) key =
      if key = k then some ((glookup g k).getD [] ++ [v]) else glookup g key := by
  induction g with
  | nil =>
    by_cases h : key = k
    · subst h
      simp [addToGroup, glookup]
    · simp [addToGroup, glookup, h, show ¬k = key from fun hh => h hh.symm]
  | cons e rest ih =>
    obtain ⟨k0, vs⟩ := e
    by_cases h0 : k0 = k
    · subst h0
      by_cases h : key = k0
      · subst h
        simp [addToGroup, glookup]
      · simp [addToGroup, glookup, h, show ¬k0 = key from fun hh => h hh.symm]
    · by_cases h1 : k0 = key
      · subst h1
        simp [addToGroup, glookup, h0, show ¬k0 = k from h0]
      · simp [addToGroup, glookup, h0, h1, ih]

theorem glookup_foldl (ps : List (String × String)) :
    ∀ (g : List (String × List String)) (key : String),
      glookup (ps.foldl (fun g p => addToGroup g p.1 p.2) g) key =
        if (glookup g key).isSome ∨ valuesOfKey ps key ≠ [] then
          some ((glookup g key).getD [] ++ valuesOfKey ps key)
        else Option.none := by
  induction ps with
  | nil =>
    intro g key
    simp only [List.foldl_nil, valuesOfKey, List.filter_nil, List.map_nil]
    cases h : glookup g key <;> simp [h]
  | cons p rest ih =>
    intro g key
    simp only [List.foldl_cons]
    rw [ih (addToGroup g p.1 p.2) key, glookup_addToGroup, valuesOfKey_cons]
    by_cases hk : key = p.1
    · subst hk
      simp
    · simp [hk, show ¬p.1 = key from fun hh => hk hh.symm]

theorem glookup_groupPairs (ps : List (String × String)) (key : String) :
    glookup (groupPairs ps) key =
      if valuesOfKey ps key = [] then Option.none else some (valuesOfKey ps key) := by
  unfold groupPairs
  rw [glookup_foldl ps [] key]
  by_cases h : valuesOfKey ps key = [] <;> simp [glookup, h]

theorem groupPairs_keys_aux (ps : List (String × String)) :
    ∀ g : List (String × List String), (g.map Prod.fst).Nodup →
      ((((ps.foldl (fun g p => addToGroup g p.1 p.2) g)).map Prod.fst).Nodup ∧
       ∀ key ∈ ((ps.foldl (fun g p => addToGroup g p.1 p.2) g)).map Prod.fst,
         key ∈ g.map Prod.fst ∨ key ∈ ps.map Prod.fst) := by
  induction ps with
  | nil => intro g hg; exact ⟨hg, fun key hk => Or.inl hk⟩
  | cons p rest ih =>
    intro g hg
    simp only [List.foldl_cons]
    obtain ⟨hnd, hsub⟩ := ih (addToGroup g p.1 p.2) (addToGroup_keys_nodup g p.1 p.2 hg)
    refine ⟨hnd, ?_⟩
    intro key hk
    rcases hsub key hk with hin | hin
    · rw [addToGroup_keys] at hin
      by_cases hmem : p.1 ∈ g.map Prod.fst
      · rw [if_pos hmem] at hin
        exact Or.inl hin
      · rw [if_neg hmem] at hin
        rcases List.mem_append.mp hin with h | h
        · exact Or.inl h
        · simp at h
          simp [h]
    · simp [hin]

theorem groupPairs_keys_nodup (ps : List (String × String)) :
    ((groupPairs ps).map Prod.fst).Nodup :=
  (groupPairs_keys_aux ps [] (by simp)).1

theorem groupPairs_keys_sub (ps : List (String × String)) :
    ∀ key ∈ (groupPairs ps).map Prod.fst, key ∈ ps.map Prod.fst := by
  intro key hk
  rcases (groupPairs_keys_aux ps [] (by simp)).2 key hk with h | h
  · cases h
  · exact h

theorem groupPairs_vals_ne (ps : List (String × String)) :
    ∀ e ∈ groupPairs ps, e.2 ≠ [] := by
  have haux : ∀ (g : List (String × List String)), (∀ e ∈ g, e.2 ≠ []) →
      ∀ e ∈ ps.foldl (fun g p => addToGroup g p.1 p.2) g, e.2 ≠ [] := by
    induction ps with
    | nil => intro g hg; exact hg
    | cons p rest ih =>
      intro g hg
      simp only [List.foldl_cons]
      exact ih (addToGroup g p.1 p.2) (addToGroup_vals_ne g p.1 p.2 hg)
  exact haux [] (by simp)

theorem findLow_none (g : List (String × List String)) (kl : String)
    (h : ∀ e ∈ g, pyLower e.1 ≠ kl) : findLow g kl = Option.none := by
  induction g with
  | nil => rfl
  | cons e rest ih =>
    simp [findLow, h e (List.mem_cons_self e rest),
      ih (fun e' he' => h e' (List.mem_cons_of_mem e he'))]

theorem findLow_eq_glookup (g : List (String × List String)) (kl k₀ : String)
    (hk : pyLower k₀ = kl)
    (huniq : ∀ e ∈ g, pyLower e.1 = kl → e.1 = k₀) :
    findLow g kl = glookup g k₀ := by
  induction g with
  | nil => rfl
  | cons e rest ih =>
    obtain ⟨k, vs⟩ := e
    by_cases h : pyLower k = kl
    · have hke : k = k₀ := huniq (k, vs) (List.mem_cons_self _ _) h
      subst hke
      simp [findLow, glookup, h]
    · have hne : k ≠ k₀ := fun hh => h (hh ▸ hk)
      simp [findLow, glookup, h, hne,
        ih (fun e' he' => huniq e' (List.mem_cons_of_mem _ he'))]

theorem valuesOfLow_eq_valuesOfKey (ps : List (String × String)) (kl k₀ : String)
    (hk : pyLower k₀ = kl)
    (huniq : ∀ p ∈ ps, pyLower p.1 = kl → p.1 = k₀) :
    valuesOfLow ps kl = valuesOfKey ps k₀ := by
  induction ps with
  | nil => rfl
  | cons p rest ih =>
    rw [valuesOfLow_cons, valuesOfKey_cons]
    have ih' := ih (fun p' hp' => huniq p' (List.mem_cons_of_mem _ hp'))
    by_cases h : pyLower p.1 = kl
    · rw [if_pos h, if_pos (huniq p (List.mem_cons_self _ _) h), ih']
    · rw [if_neg h, if_neg (fun hh : p.1 = k₀ => h (hh ▸ hk)), ih']

theorem valuesOfLow_nil_of_no_key (ps : List (String × String)) (kl : String)
    (h : ∀ p ∈ ps, pyLower p.1 ≠ kl) : valuesOfLow ps kl = [] := by
  induction ps with
  | nil => rfl
  | cons p rest ih =>
    rw [valuesOfLow_cons, if_neg (h p (List.mem_cons_self _ _))]
    exact ih (fun p' hp' => h p' (List.mem_cons_of_mem _ hp'))

theorem findLow_groupPairs (ps : List (String × String)) (kl : String)
    (hinj : ∀ p₁ ∈ ps, ∀ p₂ ∈ ps, pyLower p₁.1 = pyLower p₂.1 → p₁.1 = p₂.1) :
    findLow (groupPairs ps) kl =
      if valuesOfLow ps kl = [] then Option.none else some (valuesOfLow ps kl) := by
  by_cases hex : ∃ p₀ ∈ ps, pyLower p₀.1 = kl
  · obtain ⟨p₀, hp₀, hk₀⟩ := hex
    have hups : ∀ p ∈ ps, pyLower p.1 = kl → p.1 = p₀.1 := by
      intro p hp hpl
      exact hinj p hp p₀ hp₀ (by rw [hpl, hk₀])
    have hugr : ∀ e ∈ groupPairs ps, pyLower e.1 = kl → e.1 = p₀.1 := by
      intro e he hel
      have hmem := groupPairs_keys_sub ps e.1 (List.mem_map_of_mem Prod.fst he)
      obtain ⟨q, hq, hfst⟩ := List.mem_map.mp hmem
      rw [← hfst]
      exact hups q hq (by rw [hfst, hel])
    rw [findLow_eq_glookup _ _ _ hk₀ hugr, glookup_groupPairs,
      valuesOfLow_eq_valuesOfKey ps kl p₀.1 hk₀ hups]
  · push_neg at hex
    have h2 : ∀ e ∈ groupPairs ps, pyLower e.1 ≠ kl := by
      intro e he
      have hmem := groupPairs_keys_sub ps e.1 (List.mem_map_of_mem Prod.fst he)
      obtain ⟨q, hq, hfst⟩ := List.mem_map.mp hmem
      rw [← hfst]
      exact hex q hq
    rw [findLow_none _ _ h2, valuesOfLow_nil_of_no_key ps kl hex]
    simp

theorem glookup_mem (g : List (String × List String)) (k : String) (vs : List String)
    (h : glookup g k = some vs) : k ∈ g.map Prod.fst := by
  induction g with
  | nil => cases h
  | cons e rest ih =>
    obtain ⟨k0, vs0⟩ := e
    by_cases h0 : k0 = k
    · simp [h0]
    · simp only [glookup, beq_iff_eq, h0, if_false] at h
      simp [ih h]

theorem mem_groupPairs_keys (ps : List (String × String)) (k : String)
    (h : k ∈ ps.map Prod.fst) : k ∈ (groupPairs ps).map Prod.fst := by
  obtain ⟨p, hp, hpk⟩ := List.mem_map.mp h
  have hmem : p.2 ∈ valuesOfKey ps k :=
    List.mem_map_of_mem _ (List.mem_filter.mpr ⟨hp, by simp [hpk]⟩)
  have hne : valuesOfKey ps k ≠ [] := List.ne_nil_of_mem hmem
  have hgl := glookup_groupPairs ps k
  rw [if_neg hne] at hgl
  exact glookup_mem _ _ _ hgl

/-- One permitted-key group reduces the projection to the tail with some
updated record. -/
theorem projectConditions_cons_ok (d : ConditionsRec) (k : String) (vs : List String)
    (rest : List (String × List String))
    (h : pyLower k = "field" ∨ pyLower k = "operator" ∨ pyLower k = "values") :
    ∃ d', projectConditions d ((k, vs) :: rest) = projectConditions d' rest := by
  rcases h with h | h | h
  · cases vs with
    | nil => exact ⟨d, by simp [projectConditions, h]⟩
    | cons v0 vtl => exact ⟨{ d with field := some v0 }, by simp [projectConditions, h]⟩
  · cases vs with
    | nil => exact ⟨d, by simp [projectConditions, h]⟩
    | cons v0 vtl => exact ⟨{ d with operator := some v0 }, by simp [projectConditions, h]⟩
  · exact ⟨{ d with values := some vs }, by simp [projectConditions, h]⟩

/-- Projection over groups with pairwise-distinct lowercased keys, all
permitted and all nonempty: the record reads off each lowered key's (unique)
group. -/
theorem projectConditions_char (groups : List (String × List String)) :
    ∀ d : ConditionsRec,
    ((groups.map (fun e => pyLower e.1)).Nodup) →
    (∀ e ∈ groups, pyLower e.1 = "field" ∨ pyLower e.1 = "operator" ∨ pyLower e.1 = "values") →
    (∀ e ∈ groups, e.2 ≠ []) →
    ∃ r, projectConditions d groups = .ok r ∧
      r.field = (match findLow groups "field" with
        | some vs => vs.head?
        | Option.none => d.field) ∧
      r.operator = (match findLow groups "operator" with
        | some vs => vs.head?
        | Option.none => d.operator) ∧
      r.values = (match findLow groups "values" with
        | some vs => some vs
        | Option.none => d.values) := by
  induction groups with
  | nil => exact fun d _ _ _ => ⟨d, rfl, rfl, rfl, rfl⟩
  | cons e rest ih =>
    intro d hnd hperm hne
    obtain ⟨k, vs⟩ := e
    have hvs : vs ≠ [] := hne (k, vs) (List.mem_cons_self _ _)
    obtain ⟨v0, vtl, rfl⟩ : ∃ v0 vtl, vs = v0 :: vtl := by
      cases vs with
      | nil => exact absurd rfl hvs
      | cons a b => exact ⟨a, b, rfl⟩
    have hnd' : ((rest.map (fun e => pyLower e.1)).Nodup) := (List.nodup_cons.mp hnd).2
    have hnotin : pyLower k ∉ rest.map (fun e => pyLower e.1) := (List.nodup_cons.mp hnd).1
    have hperm' := fun e' he' => hperm e' (List.mem_cons_of_mem _ he')
    have hne' := fun e' he' => hne e' (List.mem_cons_of_mem _ he')
    have hrestnone : findLow rest (pyLower k) = Option.none := by
      apply findLow_none
      intro e' he' hcon
      exact hnotin (hcon ▸ List.mem_map_of_mem (fun e => pyLower e.1) he')
    rcases hperm (k, v0 :: vtl) (List.mem_cons_self _ _) with hf0 | ho0 | hv0
    · have hf : pyLower k = "field" := hf0
      obtain ⟨r, hr, hrf, hro, hrv⟩ := ih { d with field := some v0 } hnd' hperm' hne'
      refine ⟨r, ?_, ?_, ?_, ?_⟩
      · simp [projectConditions, hf, hr]
      · have hfr : findLow rest "field" = Option.none := by rw [← hf]; exact hrestnone
        rw [hrf, hfr]
        simp [findLow, hf]
      · rw [hro]
        cases hfo : findLow rest "operator" <;> simp [findLow, hf, hfo]
      · rw [hrv]
        cases hfo : findLow rest "values" <;> simp [findLow, hf, hfo]
    · have ho : pyLower k = "operator" := ho0
      obtain ⟨r, hr, hrf, hro, hrv⟩ := ih { d with operator := some v0 } hnd' hperm' hne'
      refine ⟨r, ?_, ?_, ?_, ?_⟩
      · simp [projectConditions, ho, hr]
      · rw [hrf]
        cases hfo : findLow rest "field" <;> simp [findLow, ho, hfo]
      · have hfr : findLow rest "operator" = Option.none := by rw [← ho]; exact hrestnone
        rw [hro, hfr]
        simp [findLow, ho]
      · rw [hrv]
        cases hfo : findLow rest "values" <;> simp [findLow, ho, hfo]
    · have hv : pyLower k = "values" := hv0
      obtain ⟨r, hr, hrf, hro, hrv⟩ := ih { d with values := some (v0 :: vtl) } hnd' hperm' hne'
      refine ⟨r, ?_, ?_, ?_, ?_⟩
      · simp [projectConditions, hv, hr]
      · rw [hrf]
        cases hfo : findLow rest "field" <;> simp [findLow, hv, hfo]
      · rw [hro]
        cases hfo : findLow rest "operator" <;> simp [findLow, hv, hfo]
      · have hfr : findLow rest "values" = Option.none := by rw [← hv]; exact hrestnone
        rw [hrv, hfr]
        simp [findLow, hv]

/-- Projection with some group keyed outside the permitted set errors,
naming an offending raw key. -/
theorem projectConditions_err (groups : List (String × List String)) :
    ∀ d : ConditionsRec,
    (∃ e ∈ groups, pyLower e.1 ≠ "field" ∧ pyLower e.1 ≠ "operator" ∧ pyLower e.1 ≠ "values") →
    ∃ k', k' ∈ groups.map Prod.fst ∧
      pyLower k' ≠ "field" ∧ pyLower k' ≠ "operator" ∧ pyLower k' ≠ "values" ∧
      projectConditions d groups = .error (conditionsErrMsg k') := by
  induction groups with
  | nil =>
    intro d hex
    obtain ⟨e, he, _⟩ := hex
    cases he
  | cons e rest ih =>
    intro d hex
    obtain ⟨k, vs⟩ := e
    by_cases hok : pyLower k = "field" ∨ pyLower k = "operator" ∨ pyLower k = "values"
    · obtain ⟨d', hd'⟩ := projectConditions_cons_ok d k vs rest hok
      have hex' : ∃ e ∈ rest,
          pyLower e.1 ≠ "field" ∧ pyLower e.1 ≠ "operator" ∧ pyLower e.1 ≠ "values" := by
        obtain ⟨e', he', hprop⟩ := hex
        rcases List.mem_cons.mp he' with heq | hm
        · exfalso
          rw [heq] at hprop
          rcases hok with h | h | h
          · exact hprop.1 h
          · exact hprop.2.1 h
          · exact hprop.2.2 h
        · exact ⟨e', hm, hprop⟩
      obtain ⟨k', hk', h1, h2, h3, herr⟩ := ih d' hex'
      refine ⟨k', ?_, h1, h2, h3, ?_⟩
      · simp only [List.map_cons]
        exact List.mem_cons_of_mem _ hk'
      · rw [hd', herr]
    · push_neg at hok
      exact ⟨k, by simp, hok.1, hok.2.1, hok.2.2, by
        simp [projectConditions, hok.1, hok.2.1, hok.2.2]⟩

/-- C9 counterexample: the code groups by RAW key and only lowercases during
projection, so with tokens `Values=x` and `values=y` the record's `values`
is the last raw group `[y]`, not the lowercased-key group `[x, y]` the claim
prescribes. -/
theorem claim_C9_conditions_counterexample :
    getActionConditions ["Values=x", "values=y"] "--conditions"
      = .ok { field := Option.none, operator := Option.none, values := some ["y"] } ∧
    valuesOfLow (["Values=x", "values=y"].filterMap splitFirstEq) "values" = ["x", "y"] ∧
    (["y"] : List String) ≠ ["x", "y"] := by decide

/-- C9 (amended): provided no two tokens carry distinct raw keys with the
same lowercased form, `AddConditions.get_action` behaves as the claim
states: a token without `=` fails with the usage error naming the option;
otherwise the values are grouped by lowercased key and projected into
`{field: first value of the field group, operator: first value of the
operator group, values: all values of the values group}`; and a key outside
the permitted set fails with the error enumerating the permitted keys and
naming an offending raw key. -/
theorem claim_C9_conditions_amended (values : List String) (optionString : String)
    (hinj : ∀ p₁ ∈ values.filterMap splitFirstEq, ∀ p₂ ∈ values.filterMap splitFirstEq,
      pyLower p₁.1 = pyLower p₂.1 → p₁.1 = p₂.1) :
    ((∃ x ∈ values, splitFirstEq x = Option.none) →
      getActionConditions values optionString = .error (usageErrMsg optionString)) ∧
    ((∀ x ∈ values, (splitFirstEq x).isSome) →
      (∀ k ∈ (values.filterMap splitFirstEq).map Prod.fst,
          pyLower k = "field" ∨ pyLower k = "operator" ∨ pyLower k = "values") →
      getActionConditions values optionString = .ok
        { field := (valuesOfLow (values.filterMap splitFirstEq) "field").head?,
          operator := (valuesOfLow (values.filterMap splitFirstEq) "operator").head?,
          values := if valuesOfLow (values.filterMap splitFirstEq) "values" = []
            then Option.none else some (valuesOfLow (values.filterMap splitFirstEq) "values") }) ∧
    ((∀ x ∈ values, (splitFirstEq x).isSome) →
      (∃ k ∈ (values.filterMap splitFirstEq).map Prod.fst,
          pyLower k ≠ "field" ∧ pyLower k ≠ "operator" ∧ pyLower k ≠ "values") →
      ∃ k', k' ∈ (values.filterMap splitFirstEq).map Prod.fst ∧
        pyLower k' ≠ "field" ∧ pyLower k' ≠ "operator" ∧ pyLower k' ≠ "values" ∧
        getActionConditions values optionString = .error (conditionsErrMsg k')) := by
  refine ⟨?_, ?_, ?_⟩
  · intro hex
    obtain ⟨x, hx, hsp⟩ := hex
    unfold getActionConditions
    rw [traverseSplit_none values x hx hsp]
  · intro hall hperm
    have hk : ∀ x ∈ (groupPairs (values.filterMap splitFirstEq)).map Prod.fst,
        x ∈ (values.filterMap splitFirstEq).map Prod.fst :=
      groupPairs_keys_sub (values.filterMap splitFirstEq)
    have hnd : (((groupPairs (values.filterMap splitFirstEq)).map
        (fun e => pyLower e.1)).Nodup) := by
      have heq : (groupPairs (values.filterMap splitFirstEq)).map (fun e => pyLower e.1)
          = ((groupPairs (values.filterMap splitFirstEq)).map Prod.fst).map pyLower := by
        rw [List.map_map]
        rfl
      rw [heq]
      apply List.Nodup.map_on
      · intro x hx y hy hl
        obtain ⟨p₁, hp₁, hfx⟩ := List.mem_map.mp (hk x hx)
        obtain ⟨p₂, hp₂, hfy⟩ := List.mem_map.mp (hk y hy)
        rw [← hfx, ← hfy]
        exact hinj p₁ hp₁ p₂ hp₂ (by rw [hfx, hfy, hl])
      · exact groupPairs_keys_nodup _
    have hpermg : ∀ e ∈ groupPairs (values.filterMap splitFirstEq),
        pyLower e.1 = "field" ∨ pyLower e.1 = "operator" ∨ pyLower e.1 = "values" := by
      intro e he
      exact hperm e.1 (hk e.1 (List.mem_map_of_mem Prod.fst he))
    obtain ⟨r, hr, hrf, hro, hrv⟩ := projectConditions_char
      (groupPairs (values.filterMap splitFirstEq)) {} hnd hpermg
      (groupPairs_vals_ne _)
    unfold getActionConditions
    rw [traverseSplit_some values hall]
    dsimp only
    rw [hr]
    have hfl := findLow_groupPairs (values.filterMap splitFirstEq) "field" hinj
    have hop := findLow_groupPairs (values.filterMap splitFirstEq) "operator" hinj
    have hva := findLow_groupPairs (values.filterMap splitFirstEq) "values" hinj
    rcases r with ⟨rf, ro, rv⟩
    simp only at hrf hro hrv
    congr 1
    rw [hrf, hro, hrv, hfl, hop, hva]
    by_cases h1 : valuesOfLow (values.filterMap splitFirstEq) "field" = [] <;>
      by_cases h2 : valuesOfLow (values.filterMap splitFirstEq) "operator" = [] <;>
      by_cases h3 : valuesOfLow (values.filterMap splitFirstEq) "values" = [] <;>
      simp [h1, h2, h3]
  · intro hall hex
    obtain ⟨k, hkmem, hkbad⟩ := hex
    have hkg : k ∈ (groupPairs (values.filterMap splitFirstEq)).map Prod.fst :=
      mem_groupPairs_keys _ k hkmem
    obtain ⟨e, he, hke⟩ := List.mem_map.mp hkg
    have hexg : ∃ e ∈ groupPairs (values.filterMap splitFirstEq),
        pyLower e.1 ≠ "field" ∧ pyLower e.1 ≠ "operator" ∧ pyLower e.1 ≠ "values" :=
      ⟨e, he, by rw [hke]; exact hkbad⟩
    obtain ⟨k', hk'mem, h1, h2, h3, herr⟩ := projectConditions_err
      (groupPairs (values.filterMap splitFirstEq)) {} hexg
    refine ⟨k', groupPairs_keys_sub _ k' hk'mem, h1, h2, h3, ?_⟩
    unfold getActionConditions
    rw [traverseSplit_some values hall]
    dsimp only
    exact herr

/-- Witness for C9 (amended): a well-formed token list with repeated
`values` keys parses into the expected record. -/
theorem claim_C9_conditions_amended_witness :
    getActionConditions ["field=a", "operator=Equals", "values=1", "values=2"] "--conditions"
      = .ok { field := some "a", operator := some "Equals", values := some ["1", "2"] } := by
  have h := (claim_C9_conditions_amended
    ["field=a", "operator=Equals", "values=1", "values=2"] "--conditions" (by decide)).2.1
    (by decide) (by decide)
  rw [h]
  decide

end AzureCliExt
